import Mathlib

/-!
Verification of the design-tree normalization and rendering pipeline of the
claude-code-figma CLI.

The development shallowly embeds the JavaScript source:

* JavaScript values that flow into JSON output are modelled by the inductive
  type `JSVal` (with an explicit `undef` constructor, since assigning
  `undefined` to an object key is observable: `JSON.stringify` drops such
  members while they still count for deep equality).
* JavaScript numbers are modelled as rationals (`ℚ`).  JS `Math.round` is
  `jsRound` (floor of `x + 1/2`), and the decimal rendering of a number is
  `jsNumToString`, exact for every rational with a terminating decimal
  expansion (every actual JS float has one).
* Raw Figma API nodes are modelled by `RawNode`: a record of the fields the
  program reads, each optional field an `Option` (absence = the field is not
  present on the JSON object).
* Each JS function of the repository is translated to a Lean function of the
  same name (`extractNodeProperties`, `formatColor`, `pxToTailwindSpacing`,
  `guessComponentType`, `optimizeFigmaData`, ...).
-/

/-- Model of a JavaScript value as it flows into JSON serialization.
`undef` is JavaScript `undefined`; an object member whose value is `undef`
is present on the object (it affects deep equality) but is skipped by
`JSON.stringify`. -/
inductive JSVal where
  | undef : JSVal
  | null : JSVal
  | bool : Bool → JSVal
  | num : ℚ → JSVal
  | str : String → JSVal
  | arr : List JSVal → JSVal
  | obj : List (String × JSVal) → JSVal

/-- First-match lookup of a key in an object member list (JS object keys are
unique, so first match is the JS semantics). -/
def lookupM : List (String × JSVal) → String → Option JSVal
  | [], _ => none
  | (k', v) :: tl, k => if k' == k then some v else lookupM tl k

/-- Value of key `k` of a JS object (none on non-objects or missing keys). -/
def getKey (v : JSVal) (k : String) : Option JSVal :=
  match v with
  | .obj ms => lookupM ms k
  | _ => none

/-- Whether key `k` is present on the JS object `v` (also true for a key whose
value is `undefined`, exactly as the `in` operator / `Object.keys`). -/
def hasKey (v : JSVal) (k : String) : Bool :=
  (getKey v k).isSome

/-- JavaScript truthiness of a modelled value (`NaN` is not modelled). -/
def jsTruthy : JSVal → Bool
  | .undef => false
  | .null => false
  | .bool b => b
  | .num q => !(q == 0)
  | .str s => !(s == "")
  | .arr _ => true
  | .obj _ => true

/-- JS object member assignment `o[k] = v`: overwrite in place (keeping the
original insertion position) if the key exists, otherwise append. -/
def jsSet (ms : List (String × JSVal)) (k : String) (v : JSVal) :
    List (String × JSVal) :=
  match ms with
  | [] => [(k, v)]
  | (k', v') :: tl => if k' == k then (k, v) :: tl else (k', v') :: jsSet tl k v

/-- `Object.entries` of a modelled value. -/
def entriesOf : JSVal → List (String × JSVal)
  | .obj ms => ms
  | _ => []

mutual
/-- Decidable structural equality of JS values.  Structural equality is the
deep-equality notion of the spec: `undefined`-valued members and absent
members are distinguished, exactly as `assert.deepStrictEqual` and lodash
`isEqual` distinguish them. -/
def decEqV : (a b : JSVal) → Decidable (a = b)
  | .undef, .undef => isTrue rfl
  | .null, .null => isTrue rfl
  | .bool a, .bool b =>
    match decEq a b with
    | isTrue h => isTrue (congrArg JSVal.bool h)
    | isFalse h => isFalse (fun he => h (JSVal.bool.inj he))
  | .num a, .num b =>
    match decEq a b with
    | isTrue h => isTrue (congrArg JSVal.num h)
    | isFalse h => isFalse (fun he => h (JSVal.num.inj he))
  | .str a, .str b =>
    match decEq a b with
    | isTrue h => isTrue (congrArg JSVal.str h)
    | isFalse h => isFalse (fun he => h (JSVal.str.inj he))
  | .arr xs, .arr ys =>
    match decEqL xs ys with
    | isTrue h => isTrue (congrArg JSVal.arr h)
    | isFalse h => isFalse (fun he => h (JSVal.arr.inj he))
  | .obj xs, .obj ys =>
    match decEqM xs ys with
    | isTrue h => isTrue (congrArg JSVal.obj h)
    | isFalse h => isFalse (fun he => h (JSVal.obj.inj he))
  | .undef, .null => isFalse (fun h => JSVal.noConfusion h)
  | .undef, .bool _ => isFalse (fun h => JSVal.noConfusion h)
  | .undef, .num _ => isFalse (fun h => JSVal.noConfusion h)
  | .undef, .str _ => isFalse (fun h => JSVal.noConfusion h)
  | .undef, .arr _ => isFalse (fun h => JSVal.noConfusion h)
  | .undef, .obj _ => isFalse (fun h => JSVal.noConfusion h)
  | .null, .undef => isFalse (fun h => JSVal.noConfusion h)
  | .null, .bool _ => isFalse (fun h => JSVal.noConfusion h)
  | .null, .num _ => isFalse (fun h => JSVal.noConfusion h)
  | .null, .str _ => isFalse (fun h => JSVal.noConfusion h)
  | .null, .arr _ => isFalse (fun h => JSVal.noConfusion h)
  | .null, .obj _ => isFalse (fun h => JSVal.noConfusion h)
  | .bool _, .undef => isFalse (fun h => JSVal.noConfusion h)
  | .bool _, .null => isFalse (fun h => JSVal.noConfusion h)
  | .bool _, .num _ => isFalse (fun h => JSVal.noConfusion h)
  | .bool _, .str _ => isFalse (fun h => JSVal.noConfusion h)
  | .bool _, .arr _ => isFalse (fun h => JSVal.noConfusion h)
  | .bool _, .obj _ => isFalse (fun h => JSVal.noConfusion h)
  | .num _, .undef => isFalse (fun h => JSVal.noConfusion h)
  | .num _, .null => isFalse (fun h => JSVal.noConfusion h)
  | .num _, .bool _ => isFalse (fun h => JSVal.noConfusion h)
  | .num _, .str _ => isFalse (fun h => JSVal.noConfusion h)
  | .num _, .arr _ => isFalse (fun h => JSVal.noConfusion h)
  | .num _, .obj _ => isFalse (fun h => JSVal.noConfusion h)
  | .str _, .undef => isFalse (fun h => JSVal.noConfusion h)
  | .str _, .null => isFalse (fun h => JSVal.noConfusion h)
  | .str _, .bool _ => isFalse (fun h => JSVal.noConfusion h)
  | .str _, .num _ => isFalse (fun h => JSVal.noConfusion h)
  | .str _, .arr _ => isFalse (fun h => JSVal.noConfusion h)
  | .str _, .obj _ => isFalse (fun h => JSVal.noConfusion h)
  | .arr _, .undef => isFalse (fun h => JSVal.noConfusion h)
  | .arr _, .null => isFalse (fun h => JSVal.noConfusion h)
  | .arr _, .bool _ => isFalse (fun h => JSVal.noConfusion h)
  | .arr _, .num _ => isFalse (fun h => JSVal.noConfusion h)
  | .arr _, .str _ => isFalse (fun h => JSVal.noConfusion h)
  | .arr _, .obj _ => isFalse (fun h => JSVal.noConfusion h)
  | .obj _, .undef => isFalse (fun h => JSVal.noConfusion h)
  | .obj _, .null => isFalse (fun h => JSVal.noConfusion h)
  | .obj _, .bool _ => isFalse (fun h => JSVal.noConfusion h)
  | .obj _, .num _ => isFalse (fun h => JSVal.noConfusion h)
  | .obj _, .str _ => isFalse (fun h => JSVal.noConfusion h)
  | .obj _, .arr _ => isFalse (fun h => JSVal.noConfusion h)

/-- Decidable equality of JS array element lists. -/
def decEqL : (xs ys : List JSVal) → Decidable (xs = ys)
  | [], [] => isTrue rfl
  | [], _ :: _ => isFalse (fun h => List.noConfusion h)
  | _ :: _, [] => isFalse (fun h => List.noConfusion h)
  | x :: xs, y :: ys =>
    match decEqV x y with
    | isTrue h1 =>
      (match decEqL xs ys with
       | isTrue h2 => isTrue (h1 ▸ h2 ▸ rfl)
       | isFalse h2 => isFalse (fun he => h2 (List.cons.inj he).2))
    | isFalse h1 => isFalse (fun he => h1 (List.cons.inj he).1)

/-- Decidable equality of JS object member lists. -/
def decEqM : (xs ys : List (String × JSVal)) → Decidable (xs = ys)
  | [], [] => isTrue rfl
  | [], _ :: _ => isFalse (fun h => List.noConfusion h)
  | _ :: _, [] => isFalse (fun h => List.noConfusion h)
  | (k, v) :: xs, (k', v') :: ys =>
    match decEq k k' with
    | isTrue hk =>
      (match decEqV v v' with
       | isTrue h1 =>
         (match decEqM xs ys with
          | isTrue h2 => isTrue (hk ▸ h1 ▸ h2 ▸ rfl)
          | isFalse h2 => isFalse (fun he => h2 (List.cons.inj he).2))
       | isFalse h1 => isFalse (fun he => h1 (congrArg Prod.snd (List.cons.inj he).1)))
    | isFalse hk => isFalse (fun he => hk (congrArg Prod.fst (List.cons.inj he).1))
end

instance : DecidableEq JSVal := decEqV

/-! ### JS numbers: rounding and decimal rendering -/

/-- JS `Math.round`: round half toward positive infinity. -/
def jsRound (x : ℚ) : Int := ⌊x + 1 / 2⌋

/-- Decimal digit character for `n < 10`. -/
def digitCh (n : Nat) : Char := Char.ofNat (48 + n)

/-- Lowercase hexadecimal digit character for `n < 16`. -/
def hexCh (n : Nat) : Char := Char.ofNat (if n < 10 then 48 + n else 87 + n)

/-- Decimal digits of `n`, most significant first (fueled so that the
definition is structural and kernel-reducible). -/
def natDigitsF : Nat → Nat → List Char
  | 0, _ => []
  | f + 1, n => if n < 10 then [digitCh n] else natDigitsF f (n / 10) ++ [digitCh (n % 10)]

/-- Decimal digits of `n`, most significant first. -/
def natToChars (n : Nat) : List Char := natDigitsF (n + 1) n

/-- Decimal string of a natural number. -/
def natToStr (n : Nat) : String := String.mk (natToChars n)

/-- Decimal string of an integer (JS `${i}` for integral values). -/
def intToStr (i : Int) : String :=
  if i < 0 then "-" ++ natToStr i.natAbs else natToStr i.toNat

/-- Exactly `k` decimal digits of `n % 10^k`, zero padded, most significant
first. -/
def fixedDigits : Nat → Nat → List Char
  | 0, _ => []
  | k + 1, n => fixedDigits k (n / 10) ++ [digitCh (n % 10)]

/-- Fueled count of how many times `p` divides `n`. -/
def padicF (p : Nat) : Nat → Nat → Nat
  | 0, _ => 0
  | f + 1, n => if n ≠ 0 ∧ n % p = 0 then padicF p f (n / p) + 1 else 0

/-- Smallest exponent `k` such that `den ∣ 10^k`, whenever `den` has only the
prime factors 2 and 5 (i.e. the fraction has a terminating decimal). -/
def decExp (den : Nat) : Nat := max (padicF 2 den den) (padicF 5 den den)

/-- Whether the rational has a terminating decimal expansion.  All values
representable as JS floats do. -/
def decOkQ (q : ℚ) : Bool := decide (q.den ∣ 10 ^ decExp q.den)

/-- Decimal string of a nonnegative rational (integer part, then `.` plus the
fraction digits when nonzero), exact when the decimal terminates.  The
non-terminating fallback is never produced by a value a JS float can hold. -/
def qPosToString (p : ℚ) : String :=
  let k := decExp p.den
  if p.den ∣ 10 ^ k then
    let m := p.num.toNat * (10 ^ k / p.den)
    if k = 0 then natToStr m
    else natToStr (m / 10 ^ k) ++ "." ++ String.mk (fixedDigits k (m % 10 ^ k))
  else natToStr p.num.toNat ++ "/" ++ natToStr p.den

/-- JS number-to-string (`${x}`) for the decimal-representable rationals. -/
def jsNumToString (q : ℚ) : String :=
  if q < 0 then "-" ++ qPosToString (-q) else qPosToString q

/-- JS `n.toString(16)` digits (fueled). -/
def natHexF : Nat → Nat → List Char
  | 0, _ => []
  | f + 1, n => if n < 16 then [hexCh n] else natHexF f (n / 16) ++ [hexCh (n % 16)]

/-- JS `n.toString(16)` for naturals: lowercase hex. -/
def natToHex (n : Nat) : String := String.mk (natHexF (n + 1) n)

/-- JS `i.toString(16)` for integers. -/
def intToHex (i : Int) : String :=
  if i < 0 then "-" ++ natToHex i.natAbs else natToHex i.toNat

/-- JS `s.padStart(2, '0')`. -/
def padStart2 (s : String) : String :=
  if s.length ≥ 2 then s else String.mk (List.replicate (2 - s.length) '0' ++ s.data)

/-! ### Raw Figma node model (the fields the program reads) -/

/-- A Figma RGBA color: channels are 0–1 floats; `a` may be absent. -/
structure FigmaColor where
  r : ℚ := 0
  g : ℚ := 0
  b : ℚ := 0
  a : Option ℚ := none

/-- A gradient stop of a gradient fill. -/
structure GradStop where
  position : Option ℚ := none
  color : Option FigmaColor := none

/-- A raw fill / stroke paint object. -/
structure RawFill where
  type : String := ""
  color : Option FigmaColor := none
  opacity : Option ℚ := none
  gradientStops : List GradStop := []
  gradientHandlePositions : Option JSVal := none
  imageRef : Option String := none
  scaleMode : Option String := none

/-- The `{x, y}` offset of a shadow effect. -/
structure EffectOffset where
  x : ℚ := 0
  y : ℚ := 0

/-- A raw effect object (shadow or blur). -/
structure RawEffect where
  type : String := ""
  color : Option FigmaColor := none
  offset : Option EffectOffset := none
  radius : Option ℚ := none
  spread : Option ℚ := none
  visible : Option Bool := none

/-- The `style` object of a TEXT node. -/
structure RawTextStyle where
  fontFamily : Option String := none
  fontSize : Option ℚ := none
  fontWeight : Option ℚ := none
  lineHeightPx : Option ℚ := none
  lineHeightPercentFontSize : Option ℚ := none
  letterSpacing : Option ℚ := none
  textAlignHorizontal : Option String := none
  textAlignVertical : Option String := none
  textCase : Option String := none
  textDecoration : Option String := none

/-- An absolute bounding box. -/
structure BBox where
  x : ℚ := 0
  y : ℚ := 0
  width : ℚ := 0
  height : ℚ := 0

/-- The `trigger` of a prototype interaction. -/
structure RawTrigger where
  type : Option String := none

/-- One action of a prototype interaction. -/
structure RawAction where
  type : Option String := none
  destinationId : Option String := none

/-- A prototype interaction. -/
structure RawInteraction where
  trigger : Option RawTrigger := none
  actions : List RawAction := []

/-- The non-recursive fields of a raw Figma node that the program reads.
`Option` means the key may be absent from the JSON object. -/
structure RawProps where
  id : String := ""
  name : String := ""
  type : String := ""
  visible : Option Bool := none
  absoluteBoundingBox : Option BBox := none
  rotation : Option ℚ := none
  backgroundColor : Option FigmaColor := none
  fills : List RawFill := []
  strokes : List RawFill := []
  strokeWeight : Option ℚ := none
  strokeAlign : Option String := none
  cornerRadius : Option ℚ := none
  topLeftRadius : Option ℚ := none
  topRightRadius : Option ℚ := none
  bottomLeftRadius : Option ℚ := none
  bottomRightRadius : Option ℚ := none
  effects : List RawEffect := []
  layoutMode : Option String := none
  itemSpacing : Option ℚ := none
  layoutWrap : Option String := none
  primaryAxisSizingMode : Option String := none
  counterAxisSizingMode : Option String := none
  primaryAxisAlignItems : Option String := none
  counterAxisAlignItems : Option String := none
  paddingLeft : Option ℚ := none
  paddingRight : Option ℚ := none
  paddingTop : Option ℚ := none
  paddingBottom : Option ℚ := none
  characters : Option String := none
  style : Option RawTextStyle := none
  componentId : Option String := none
  componentProperties : Option JSVal := none
  constraints : Option JSVal := none
  interactions : List RawInteraction := []
  styles : Option JSVal := none
  boundVariables : Option JSVal := none

/-- A raw Figma node: its scalar fields plus its children.  `children` is an
`Option` because JS distinguishes an absent `children` key from a present
empty array (an empty array is still truthy). -/
inductive RawNode where
  | mk : RawProps → Option (List RawNode) → RawNode

/-- The scalar fields of a raw node. -/
def RawNode.props : RawNode → RawProps
  | .mk p _ => p

/-- The `children` field of a raw node. -/
def RawNode.children : RawNode → Option (List RawNode)
  | .mk _ c => c

/-! ### part_000 `FigmaClient` helpers: color / fill / effect formatting -/

/-- JS field read that may produce `undefined`: a present number becomes a JS
number, an absent one `undefined`. -/
def optNum : Option ℚ → JSVal
  | some q => .num q
  | none => JSVal.undef

/-- JS field read for strings: absent becomes `undefined`. -/
def optStr : Option String → JSVal
  | some s => .str s
  | none => JSVal.undef

/-- JS `x || 0` for a possibly-absent number. -/
def jsOrZero : Option ℚ → ℚ
  | some v => v
  | none => 0

/-- JS `a || b` where both numbers may be absent (used for
`lineHeightPx || lineHeightPercentFontSize`). -/
def jsOrNumU (a b : Option ℚ) : JSVal :=
  match a with
  | some v => if v == 0 then optNum b else .num v
  | none => optNum b

/-- `FigmaClient.formatColor` (part_000 lines 236–250): scale channels ×255
with `Math.round`; fully opaque colors render as lowercase padded hex,
otherwise as `rgba(r, g, b, a)`. -/
def formatColor : Option FigmaColor → JSVal
  | none => .null
  | some c =>
    let r := jsRound (c.r * 255)
    let g := jsRound (c.g * 255)
    let b := jsRound (c.b * 255)
    let a := c.a.getD 1
    if a = 1 then
      .str ("#" ++ padStart2 (intToHex r) ++ padStart2 (intToHex g) ++ padStart2 (intToHex b))
    else
      .str ("rgba(" ++ intToStr r ++ ", " ++ intToStr g ++ ", " ++ intToStr b ++ ", " ++
        jsNumToString a ++ ")")

/-- `FigmaClient.formatFill` (part_000 lines 252–285). -/
def formatFill : Option RawFill → JSVal
  | none => .null
  | some f =>
    .obj ([("type", .str f.type)] ++
      (if f.type == "SOLID" then
        [("color", formatColor f.color), ("opacity", optNum f.opacity)]
      else if f.type == "GRADIENT_LINEAR" || f.type == "GRADIENT_RADIAL" ||
          f.type == "GRADIENT_ANGULAR" || f.type == "GRADIENT_DIAMOND" then
        [("gradientStops", .arr (f.gradientStops.map (fun s =>
          .obj [("position", optNum s.position), ("color", formatColor s.color)])))] ++
        (match f.gradientHandlePositions with
         | some v => if jsTruthy v then [("gradientHandlePositions", v)] else []
         | none => [])
      else if f.type == "IMAGE" then
        [("imageRef", optStr f.imageRef), ("scaleMode", optStr f.scaleMode),
         ("opacity", optNum f.opacity)]
      else []))

/-- `FigmaClient.formatEffect` (part_000 lines 287–310). -/
def formatEffect : Option RawEffect → JSVal
  | none => .null
  | some e =>
    .obj ([("type", .str e.type)] ++
      (if e.type == "DROP_SHADOW" || e.type == "INNER_SHADOW" then
        [("color", formatColor e.color),
         ("offset", match e.offset with
           | some o => .obj [("x", .num o.x), ("y", .num o.y)]
           | none => .undef),
         ("radius", optNum e.radius), ("spread", optNum e.spread),
         ("visible", .bool (e.visible != some false))]
      else if e.type == "LAYER_BLUR" || e.type == "BACKGROUND_BLUR" then
        [("radius", optNum e.radius), ("visible", .bool (e.visible != some false))]
      else []))

/-- `FigmaClient.extractPadding` (part_000 lines 312–322): individual padding
values, or `null` when none is present. -/
def clientExtractPadding (p : RawProps) : JSVal :=
  let ms :=
    (match p.paddingLeft with | some v => [("left", JSVal.num v)] | none => []) ++
    (match p.paddingRight with | some v => [("right", JSVal.num v)] | none => []) ++
    (match p.paddingTop with | some v => [("top", JSVal.num v)] | none => []) ++
    (match p.paddingBottom with | some v => [("bottom", JSVal.num v)] | none => [])
  if ms.length > 0 then .obj ms else .null

/-! ### part_000 `extractNodeProperties` (the Node Normalizer)

The normalized node is built as a JS object whose members appear in the
assignment order of the source.  Each conditional block of the source is one
`seg…` function below. -/

/-- Base properties all nodes get (id, name, type, visible). -/
def segBase (p : RawProps) : List (String × JSVal) :=
  [("id", .str p.id), ("name", .str p.name), ("type", .str p.type),
   ("visible", .bool (p.visible != some false))]

/-- Position and size from `absoluteBoundingBox`. -/
def segBBox (p : RawProps) : List (String × JSVal) :=
  match p.absoluteBoundingBox with
  | some bb =>
    [("position", .obj [("x", .num bb.x), ("y", .num bb.y)]),
     ("size", .obj [("width", .num bb.width), ("height", .num bb.height)])]
  | none => []

/-- Rotation (only when defined). -/
def segRotation (p : RawProps) : List (String × JSVal) :=
  match p.rotation with
  | some r => [("rotation", JSVal.num r)]
  | none => []

/-- Background color (only when present). -/
def segBackground (p : RawProps) : List (String × JSVal) :=
  match p.backgroundColor with
  | some c => [("backgroundColor", formatColor (some c))]
  | none => []

/-- Fills (only when non-empty). -/
def segFills (p : RawProps) : List (String × JSVal) :=
  if p.fills.length > 0 then
    [("fills", .arr (p.fills.map (fun f => formatFill (some f))))]
  else []

/-- Strokes plus, inside the same guard, strokeWeight and strokeAlign. -/
def segStrokes (p : RawProps) : List (String × JSVal) :=
  if p.strokes.length > 0 then
    [("strokes", .arr (p.strokes.map (fun s => formatFill (some s))))] ++
    (match p.strokeWeight with | some w => [("strokeWeight", JSVal.num w)] | none => []) ++
    (match p.strokeAlign with | some a => [("strokeAlign", JSVal.str a)] | none => [])
  else []

/-- Uniform corner radius (only when defined). -/
def segCornerRadius (p : RawProps) : List (String × JSVal) :=
  match p.cornerRadius with
  | some cr => [("cornerRadius", JSVal.num cr)]
  | none => []

/-- Individual corner radii (when any is defined; missing corners default
to 0). -/
def segCornerRadii (p : RawProps) : List (String × JSVal) :=
  if p.topLeftRadius.isSome || p.topRightRadius.isSome ||
      p.bottomLeftRadius.isSome || p.bottomRightRadius.isSome then
    [("cornerRadii", .obj
      [("topLeft", .num (jsOrZero p.topLeftRadius)),
       ("topRight", .num (jsOrZero p.topRightRadius)),
       ("bottomRight", .num (jsOrZero p.bottomRightRadius)),
       ("bottomLeft", .num (jsOrZero p.bottomLeftRadius))])]
  else []

/-- Effects (only when non-empty). -/
def segEffects (p : RawProps) : List (String × JSVal) :=
  if p.effects.length > 0 then
    [("effects", .arr (p.effects.map (fun e => formatEffect (some e))))]
  else []

/-- Layout block (when `layoutMode` is defined), including its own
conditional members. -/
def segLayout (p : RawProps) : List (String × JSVal) :=
  match p.layoutMode with
  | some lm =>
    [("layout", .obj
      ([("mode", .str lm), ("spacing", optNum p.itemSpacing),
        ("padding", clientExtractPadding p), ("wrap", optStr p.layoutWrap)] ++
       (match p.primaryAxisSizingMode with
        | some v => [("primaryAxisSizingMode", JSVal.str v)] | none => []) ++
       (match p.counterAxisSizingMode with
        | some v => [("counterAxisSizingMode", JSVal.str v)] | none => []) ++
       (match p.primaryAxisAlignItems with
        | some v => [("primaryAxisAlignItems", JSVal.str v)] | none => []) ++
       (match p.counterAxisAlignItems with
        | some v => [("counterAxisAlignItems", JSVal.str v)] | none => [])))]
  | none => []

/-- TEXT-specific properties: `textContent` is assigned unconditionally in
the TEXT branch (hence may be an `undefined` member), `textStyle` only when
`style` is present. -/
def segText (p : RawProps) : List (String × JSVal) :=
  if p.type == "TEXT" then
    [("textContent", optStr p.characters)] ++
    (match p.style with
     | some st =>
       [("textStyle", .obj
         [("fontFamily", optStr st.fontFamily), ("fontSize", optNum st.fontSize),
          ("fontWeight", optNum st.fontWeight),
          ("lineHeight", jsOrNumU st.lineHeightPx st.lineHeightPercentFontSize),
          ("letterSpacing", optNum st.letterSpacing),
          ("textAlign", optStr st.textAlignHorizontal),
          ("verticalAlign", optStr st.textAlignVertical),
          ("textCase", optStr st.textCase),
          ("textDecoration", optStr st.textDecoration)])]
     | none => [])
  else []

/-- INSTANCE-specific properties. -/
def segInstance (p : RawProps) : List (String × JSVal) :=
  if p.type == "INSTANCE" then
    [("componentId", optStr p.componentId)] ++
    (match p.componentProperties with
     | some cp => if jsTruthy cp then [("componentProperties", cp)] else []
     | none => [])
  else []

/-- Constraints (only when present and truthy). -/
def segConstraints (p : RawProps) : List (String × JSVal) :=
  match p.constraints with
  | some c => if jsTruthy c then [("constraints", c)] else []
  | none => []

mutual
/-- `FigmaClient.extractNodeProperties` (part_000 lines 91–233): the Node
Normalizer.  Produces the normalized node as a JS object whose members
appear in source assignment order; children are normalized recursively. -/
def extractNodeProperties : RawNode → JSVal
  | .mk p cs =>
    .obj (segBase p ++ segBBox p ++ segRotation p ++ segBackground p ++
      segFills p ++ segStrokes p ++ segCornerRadius p ++ segCornerRadii p ++
      segEffects p ++ segLayout p ++ segText p ++ segInstance p ++
      segConstraints p ++
      (match cs with
       | some l => if l.length > 0 then [("children", .arr (extractChildren l))] else []
       | none => []))

/-- Normalization of a list of children, in order. -/
def extractChildren : List RawNode → List JSVal
  | [] => []
  | c :: tl => extractNodeProperties c :: extractChildren tl
end

/-- The `if (!node) return null` guard of `extractNodeProperties`. -/
def extractNodePropertiesO : Option RawNode → JSVal
  | none => .null
  | some n => extractNodeProperties n

/-- The children member list of a normalized node (the recursive tail of
`extractNodeProperties`), as a named segment. -/
def segChildren (cs : Option (List RawNode)) : List (String × JSVal) :=
  match cs with
  | some l => if l.length > 0 then [("children", .arr (extractChildren l))] else []
  | none => []

/-! ### `JSON.stringify(value, null, 2)` — the JSON renderer -/

/-- The opening-brace character (U+007B). -/
def lbrace : Char := Char.ofNat 123

/-- The closing-brace character (U+007D). -/
def rbrace : Char := Char.ofNat 125

/-- Indentation: `n` spaces. -/
def wsPad (n : Nat) : List Char := List.replicate n ' '

/-- JSON escape of one character, as `JSON.stringify` performs it. -/
def escChar (c : Char) : List Char :=
  if c = '"' then ['\\', '"']
  else if c = '\\' then ['\\', '\\']
  else if c = '\n' then ['\\', 'n']
  else if c = '\r' then ['\\', 'r']
  else if c = '\t' then ['\\', 't']
  else if c = Char.ofNat 8 then ['\\', 'b']
  else if c = Char.ofNat 12 then ['\\', 'f']
  else if c.toNat < 32 then ['\\', 'u', '0', '0', hexCh (c.toNat / 16), hexCh (c.toNat % 16)]
  else [c]

/-- JSON escape of a character list. -/
def escList : List Char → List Char
  | [] => []
  | c :: tl => escChar c ++ escList tl

/-- JSON string literal: quote, escaped body, quote. -/
def renderString (s : String) : List Char :=
  '"' :: (escList s.data ++ ['"'])

mutual
/-- Pretty JSON rendering with 2-space indentation, exactly as
`JSON.stringify(v, null, 2)`: `undefined` object members are skipped,
`undefined` array elements render as `null`. -/
def renderV (ind : Nat) : JSVal → List Char
  | .undef => "null".data
  | .null => "null".data
  | .bool b => if b then "true".data else "false".data
  | .num q => (jsNumToString q).data
  | .str s => renderString s
  | .arr xs => '[' :: renderArrInner ind xs
  | .obj ms => lbrace :: renderObjInner ind ms

/-- Everything of a rendered array after the opening bracket. -/
def renderArrInner (ind : Nat) : List JSVal → List Char
  | [] => [']']
  | x :: xs => '\n' :: (wsPad (ind + 2) ++ renderV (ind + 2) x ++ renderArrTail ind xs)

/-- Remaining elements of a rendered array (each preceded by a comma), then
the closing bracket. -/
def renderArrTail (ind : Nat) : List JSVal → List Char
  | [] => '\n' :: (wsPad ind ++ [']'])
  | x :: xs => ',' :: '\n' :: (wsPad (ind + 2) ++ renderV (ind + 2) x ++ renderArrTail ind xs)

/-- Everything of a rendered object after the opening brace; members with
`undefined` values are skipped. -/
def renderObjInner (ind : Nat) : List (String × JSVal) → List Char
  | [] => [rbrace]
  | (k, v) :: tl =>
    match v with
    | .undef => renderObjInner ind tl
    | _ => '\n' :: (wsPad (ind + 2) ++ renderString k ++ ':' :: ' ' ::
        (renderV (ind + 2) v ++ renderObjTail ind tl))

/-- Remaining members of a rendered object (each preceded by a comma; members
with `undefined` values skipped), then the closing brace. -/
def renderObjTail (ind : Nat) : List (String × JSVal) → List Char
  | [] => '\n' :: (wsPad ind ++ [rbrace])
  | (k, v) :: tl =>
    match v with
    | .undef => renderObjTail ind tl
    | _ => ',' :: '\n' :: (wsPad (ind + 2) ++ renderString k ++ ':' :: ' ' ::
        (renderV (ind + 2) v ++ renderObjTail ind tl))
end

/-- `JSON.stringify(v, null, 2)`: `undefined` at top level yields no string
(JS returns `undefined`). -/
def jsonStringify (v : JSVal) : Option String :=
  match v with
  | .undef => none
  | v => some (String.mk (renderV 0 v))

mutual
/-- The value actually encoded by `JSON.stringify`: `undefined` object
members are dropped, `undefined` array elements (and a bare `undefined`
inside an array) become `null`. -/
def stripV : JSVal → JSVal
  | .undef => .null
  | .null => .null
  | .bool b => .bool b
  | .num q => .num q
  | .str s => .str s
  | .arr xs => .arr (stripL xs)
  | .obj ms => .obj (stripM ms)

/-- Strip of array elements. -/
def stripL : List JSVal → List JSVal
  | [] => []
  | x :: tl => stripV x :: stripL tl

/-- Strip of object members (dropping `undefined`-valued ones). -/
def stripM : List (String × JSVal) → List (String × JSVal)
  | [] => []
  | (k, v) :: tl =>
    match v with
    | .undef => stripM tl
    | _ => (k, stripV v) :: stripM tl
end

mutual
/-- All numbers inside the value have terminating decimal expansions (true of
every value holding actual JS floats). -/
def numsOkV : JSVal → Bool
  | .num q => decOkQ q
  | .arr xs => numsOkL xs
  | .obj ms => numsOkM ms
  | _ => true

/-- `numsOkV` over array elements. -/
def numsOkL : List JSVal → Bool
  | [] => true
  | x :: tl => numsOkV x && numsOkL tl

/-- `numsOkV` over object members. -/
def numsOkM : List (String × JSVal) → Bool
  | [] => true
  | (_, v) :: tl => numsOkV v && numsOkM tl
end

/-! ### `JSON.parse` — the JSON parser -/

/-- JSON whitespace. -/
def isWsCh (c : Char) : Bool := c == ' ' || c == '\n' || c == '\t' || c == '\r'

/-- Skip leading whitespace. -/
def skipWs : List Char → List Char
  | [] => []
  | c :: tl => if isWsCh c then skipWs tl else c :: tl

/-- ASCII decimal digit test. -/
def isDigitCh (c : Char) : Bool := 48 ≤ c.toNat && c.toNat ≤ 57

/-- Value of an ASCII decimal digit. -/
def digitVal (c : Char) : Nat := c.toNat - 48

/-- Split the longest digit run off the front. -/
def takeDigits : List Char → List Char × List Char
  | [] => ([], [])
  | c :: tl =>
    if isDigitCh c then
      let r := takeDigits tl
      (c :: r.1, r.2)
    else ([], c :: tl)

/-- Numeric value of a digit run. -/
def digitsToNat (ds : List Char) : Nat :=
  ds.foldl (fun acc c => acc * 10 + digitVal c) 0

/-- Parse an unsigned JSON number (integer part, optional fraction). -/
def parsePosNum (input : List Char) : Option (ℚ × List Char) :=
  let p := takeDigits input
  if p.1.isEmpty then none
  else
    match p.2 with
    | c :: r2 =>
      if c = '.' then
        let fp := takeDigits r2
        if fp.1.isEmpty then none
        else some ((digitsToNat p.1 : ℚ) + (digitsToNat fp.1 : ℚ) / (10 : ℚ) ^ fp.1.length, fp.2)
      else some ((digitsToNat p.1 : ℚ), c :: r2)
    | [] => some ((digitsToNat p.1 : ℚ), [])

/-- Parse a JSON number with optional leading minus. -/
def parseNumAt (input : List Char) : Option (ℚ × List Char) :=
  match input with
  | c :: tl =>
    if c = '-' then
      match parsePosNum tl with
      | some (q, r) => some (-q, r)
      | none => none
    else parsePosNum (c :: tl)
  | [] => none

/-- ASCII hexadecimal digit test. -/
def isHexCh (c : Char) : Bool :=
  (48 ≤ c.toNat && c.toNat ≤ 57) || (97 ≤ c.toNat && c.toNat ≤ 102) ||
  (65 ≤ c.toNat && c.toNat ≤ 70)

/-- Value of an ASCII hexadecimal digit. -/
def hexVal (c : Char) : Nat :=
  if 48 ≤ c.toNat ∧ c.toNat ≤ 57 then c.toNat - 48
  else if 97 ≤ c.toNat ∧ c.toNat ≤ 102 then c.toNat - 87
  else c.toNat - 55

/-- Parse the body of a JSON string after the opening quote, undoing the
escapes; rejects unescaped control characters as `JSON.parse` does. -/
def parseStrBody : List Char → Option (List Char × List Char)
  | [] => none
  | c :: tl =>
    if c = '"' then some ([], tl)
    else if c = '\\' then
      match tl with
      | [] => none
      | e :: tl2 =>
        if e = '"' ∨ e = '\\' ∨ e = '/' then
          (parseStrBody tl2).map (fun p => (e :: p.1, p.2))
        else if e = 'n' then
          (parseStrBody tl2).map (fun p => ('\n' :: p.1, p.2))
        else if e = 'r' then
          (parseStrBody tl2).map (fun p => ('\r' :: p.1, p.2))
        else if e = 't' then
          (parseStrBody tl2).map (fun p => ('\t' :: p.1, p.2))
        else if e = 'b' then
          (parseStrBody tl2).map (fun p => (Char.ofNat 8 :: p.1, p.2))
        else if e = 'f' then
          (parseStrBody tl2).map (fun p => (Char.ofNat 12 :: p.1, p.2))
        else if e = 'u' then
          match tl2 with
          | h1 :: h2 :: h3 :: h4 :: tl3 =>
            if isHexCh h1 && isHexCh h2 && isHexCh h3 && isHexCh h4 then
              (parseStrBody tl3).map (fun p =>
                (Char.ofNat (hexVal h1 * 4096 + hexVal h2 * 256 +
                  hexVal h3 * 16 + hexVal h4) :: p.1, p.2))
            else none
          | _ => none
        else none
    else if c.toNat < 32 then none
    else (parseStrBody tl).map (fun p => (c :: p.1, p.2))

mutual
/-- Fueled recursive-descent JSON value parser (the fuel makes the mutual
definitions structural and kernel-reducible; `jsonParse` supplies ample
fuel). -/
def parseV : Nat → List Char → Option (JSVal × List Char)
  | 0, _ => none
  | f + 1, input =>
    match skipWs input with
    | [] => none
    | c :: tl =>
      if c = lbrace then parseObjBody f tl
      else if c = '[' then parseArrBody f tl
      else if c = '"' then
        (parseStrBody tl).map (fun p => (.str (String.mk p.1), p.2))
      else if c = 'n' then
        match tl with
        | 'u' :: 'l' :: 'l' :: r => some (.null, r)
        | _ => none
      else if c = 't' then
        match tl with
        | 'r' :: 'u' :: 'e' :: r => some (.bool true, r)
        | _ => none
      else if c = 'f' then
        match tl with
        | 'a' :: 'l' :: 's' :: 'e' :: r => some (.bool false, r)
        | _ => none
      else (parseNumAt (c :: tl)).map (fun p => (.num p.1, p.2))

/-- Array parser, entered after the opening bracket. -/
def parseArrBody : Nat → List Char → Option (JSVal × List Char)
  | 0, _ => none
  | f + 1, input =>
    match skipWs input with
    | [] => none
    | c :: tl =>
      if c = ']' then some (.arr [], tl)
      else
        (parseV f input).bind (fun vr =>
          (parseArrRest f vr.2).map (fun vs => (.arr (vr.1 :: vs.1), vs.2)))

/-- Remaining array elements: comma-separated values until the bracket. -/
def parseArrRest : Nat → List Char → Option (List JSVal × List Char)
  | 0, _ => none
  | f + 1, input =>
    match skipWs input with
    | [] => none
    | c :: tl =>
      if c = ']' then some ([], tl)
      else if c = ',' then
        (parseV f tl).bind (fun vr =>
          (parseArrRest f vr.2).map (fun vs => (vr.1 :: vs.1, vs.2)))
      else none

/-- Object parser, entered after the opening brace. -/
def parseObjBody : Nat → List Char → Option (JSVal × List Char)
  | 0, _ => none
  | f + 1, input =>
    match skipWs input with
    | [] => none
    | c :: tl =>
      if c = rbrace then some (.obj [], tl)
      else
        (parseMemberAt f (c :: tl)).bind (fun kvr =>
          (parseObjRest f kvr.2.2).map (fun ms => (.obj ((kvr.1, kvr.2.1) :: ms.1), ms.2)))

/-- One `"key": value` member, entered at the key's opening quote. -/
def parseMemberAt : Nat → List Char → Option (String × JSVal × List Char)
  | 0, _ => none
  | f + 1, input =>
    match input with
    | [] => none
    | c :: tl =>
      if c = '"' then
        (parseStrBody tl).bind (fun kr =>
          match skipWs kr.2 with
          | [] => none
          | c2 :: r2 =>
            if c2 = ':' then
              (parseV f r2).map (fun vr => (String.mk kr.1, vr.1, vr.2))
            else none)
      else none

/-- Remaining object members: comma-separated until the brace. -/
def parseObjRest : Nat → List Char → Option (List (String × JSVal) × List Char)
  | 0, _ => none
  | f + 1, input =>
    match skipWs input with
    | [] => none
    | c :: tl =>
      if c = rbrace then some ([], tl)
      else if c = ',' then
        (parseMemberAt f (skipWs tl)).bind (fun kvr =>
          (parseObjRest f kvr.2.2).map (fun ms => ((kvr.1, kvr.2.1) :: ms.1, ms.2)))
      else none
end

/-- The body of a `parseV` step, taking the whitespace-stripped input. -/
def parseVCore (f : Nat) (s : List Char) : Option (JSVal × List Char) :=
  match s with
  | [] => none
  | c :: tl =>
    if c = lbrace then parseObjBody f tl
    else if c = '[' then parseArrBody f tl
    else if c = '"' then
      (parseStrBody tl).map (fun p => (JSVal.str (String.mk p.1), p.2))
    else if c = 'n' then
      match tl with
      | 'u' :: 'l' :: 'l' :: r => some (JSVal.null, r)
      | _ => none
    else if c = 't' then
      match tl with
      | 'r' :: 'u' :: 'e' :: r => some (JSVal.bool true, r)
      | _ => none
    else if c = 'f' then
      match tl with
      | 'a' :: 'l' :: 's' :: 'e' :: r => some (JSVal.bool false, r)
      | _ => none
    else (parseNumAt (c :: tl)).map (fun p => (JSVal.num p.1, p.2))

/-- The body of a `parseArrBody` step: the original input plus its
whitespace-stripped form. -/
def parseArrBodyCore (f : Nat) (input s : List Char) : Option (JSVal × List Char) :=
  match s with
  | [] => none
  | c :: tl =>
    if c = ']' then some (JSVal.arr [], tl)
    else
      (parseV f input).bind (fun vr =>
        (parseArrRest f vr.2).map (fun vs => (JSVal.arr (vr.1 :: vs.1), vs.2)))

/-- The body of a `parseArrRest` step, taking the whitespace-stripped input. -/
def parseArrRestCore (f : Nat) (s : List Char) : Option (List JSVal × List Char) :=
  match s with
  | [] => none
  | c :: tl =>
    if c = ']' then some ([], tl)
    else if c = ',' then
      (parseV f tl).bind (fun vr =>
        (parseArrRest f vr.2).map (fun vs => (vr.1 :: vs.1, vs.2)))
    else none

/-- The body of a `parseObjBody` step, taking the whitespace-stripped input. -/
def parseObjBodyCore (f : Nat) (s : List Char) : Option (JSVal × List Char) :=
  match s with
  | [] => none
  | c :: tl =>
    if c = rbrace then some (JSVal.obj [], tl)
    else
      (parseMemberAt f (c :: tl)).bind (fun kvr =>
        (parseObjRest f kvr.2.2).map (fun ms => (JSVal.obj ((kvr.1, kvr.2.1) :: ms.1), ms.2)))

/-- The body of a `parseObjRest` step, taking the whitespace-stripped input. -/
def parseObjRestCore (f : Nat) (s : List Char) :
    Option (List (String × JSVal) × List Char) :=
  match s with
  | [] => none
  | c :: tl =>
    if c = rbrace then some ([], tl)
    else if c = ',' then
      (parseMemberAt f (skipWs tl)).bind (fun kvr =>
        (parseObjRest f kvr.2.2).map (fun ms => ((kvr.1, kvr.2.1) :: ms.1, ms.2)))
    else none

/-- `JSON.parse`: parse one value and require only whitespace after it. -/
def jsonParse (s : String) : Option JSVal :=
  match parseV (s.data.length + 1) s.data with
  | some (v, rest) => if (skipWs rest).isEmpty then some v else none
  | none => none

/-! ### String helpers modelling JS string methods -/

/-- JS `toLowerCase` (ASCII range; Figma names are ASCII in practice). -/
def jsLower (s : String) : String := String.mk (s.data.map Char.toLower)

/-- Whether `pre` is a prefix of `l`. -/
def listIsPre : List Char → List Char → Bool
  | [], _ => true
  | _ :: _, [] => false
  | a :: as, b :: bs => a == b && listIsPre as bs

/-- Whether `nd` occurs in the list, at this or a later position. -/
def containsFrom (nd : List Char) : List Char → Bool
  | [] => listIsPre nd []
  | c :: tl => listIsPre nd (c :: tl) || containsFrom nd tl

/-- JS `hay.includes(needle)` (the empty needle is always contained). -/
def strContains (hay needle : String) : Bool := containsFrom needle.data hay.data

/-- JS `s.startsWith(pre)`. -/
def jsStartsWith (s pre : String) : Bool := listIsPre pre.data s.data

/-- Turn an optional class into the zero-or-one classes actually pushed. -/
def optToList : Option String → List String
  | some c => [c]
  | none => []

/-! ### index.js quantizer ladders (Tailwind class mapping) -/

/-- `pxToTailwindSpacing` (index.js lines 683–702). -/
def pxToTailwindSpacing (px : ℚ) : Option String :=
  if px ≤ 0 then none
  else if px ≤ 1 then some "0.5"
  else if px ≤ 2 then some "1"
  else if px ≤ 3 then some "1.5"
  else if px ≤ 5 then some "2"
  else if px ≤ 7 then some "3"
  else if px ≤ 10 then some "4"
  else if px ≤ 14 then some "5"
  else if px ≤ 18 then some "6"
  else if px ≤ 22 then some "7"
  else if px ≤ 26 then some "8"
  else if px ≤ 34 then some "10"
  else if px ≤ 42 then some "12"
  else if px ≤ 56 then some "16"
  else none

/-- `pxToTailwindBorderRadius` (index.js lines 704–716). -/
def pxToTailwindBorderRadius (px : ℚ) : Option String :=
  if px ≤ 0 then none
  else if px ≤ 1 then some "sm"
  else if px ≤ 3 then some "DEFAULT"
  else if px ≤ 6 then some "md"
  else if px ≤ 9 then some "lg"
  else if px ≤ 12 then some "xl"
  else if px ≤ 16 then some "2xl"
  else if px ≤ 20 then some "3xl"
  else some "full"

/-- `pxToTailwindBorderWidth` (index.js lines 718–727). -/
def pxToTailwindBorderWidth (px : ℚ) : Option String :=
  if px ≤ 0 then none
  else if px ≤ 1 then some "DEFAULT"
  else if px ≤ 2 then some "2"
  else if px ≤ 4 then some "4"
  else if px ≤ 8 then some "8"
  else none

/-- `pxToTailwindSize` (index.js lines 729–753): nearest standard size within
a tolerance band. -/
def pxToTailwindSize (px : ℚ) (pfx : String) : Option String :=
  if px ≤ 0 then none
  else if |px - 16| ≤ 2 then some (pfx ++ "-4")
  else if |px - 24| ≤ 2 then some (pfx ++ "-6")
  else if |px - 32| ≤ 2 then some (pfx ++ "-8")
  else if |px - 40| ≤ 2 then some (pfx ++ "-10")
  else if |px - 48| ≤ 2 then some (pfx ++ "-12")
  else if |px - 64| ≤ 3 then some (pfx ++ "-16")
  else if |px - 80| ≤ 3 then some (pfx ++ "-20")
  else if |px - 96| ≤ 3 then some (pfx ++ "-24")
  else if |px - 128| ≤ 4 then some (pfx ++ "-32")
  else if |px - 160| ≤ 4 then some (pfx ++ "-40")
  else if |px - 192| ≤ 4 then some (pfx ++ "-48")
  else if |px - 256| ≤ 5 then some (pfx ++ "-64")
  else if |px - 320| ≤ 5 then some (pfx ++ "-80")
  else if |px - 384| ≤ 5 then some (pfx ++ "-96")
  else if |px - 360| ≤ 5 then some (pfx ++ "-full")
  else none

/-- `colorToTailwindClass` (index.js lines 857–923): black/white
short-circuit, then grayscale ladder, then red/blue bands, then alpha
fallbacks, else no match. -/
def colorToTailwindClass (color : Option FigmaColor) (pfx : String) : Option String :=
  match color with
  | none => none
  | some c =>
    let r := jsRound (c.r * 255)
    let g := jsRound (c.g * 255)
    let b := jsRound (c.b * 255)
    let a := c.a.getD 1
    if r = 0 ∧ g = 0 ∧ b = 0 then some (pfx ++ "-black")
    else if r = 255 ∧ g = 255 ∧ b = 255 then some (pfx ++ "-white")
    else if |r - g| < 10 ∧ |r - b| < 10 then
      let brightness : ℚ := ((r : ℚ) + (g : ℚ) + (b : ℚ)) / 3
      if brightness < 30 then some (pfx ++ "-gray-950")
      else if brightness < 50 then some (pfx ++ "-gray-900")
      else if brightness < 80 then some (pfx ++ "-gray-800")
      else if brightness < 110 then some (pfx ++ "-gray-700")
      else if brightness < 135 then some (pfx ++ "-gray-600")
      else if brightness < 160 then some (pfx ++ "-gray-500")
      else if brightness < 185 then some (pfx ++ "-gray-400")
      else if brightness < 210 then some (pfx ++ "-gray-300")
      else if brightness < 230 then some (pfx ++ "-gray-200")
      else if brightness < 245 then some (pfx ++ "-gray-100")
      else some (pfx ++ "-gray-50")
    else if r > 170 ∧ g < 100 ∧ b < 100 then
      if r > 240 then some (pfx ++ "-red-500")
      else if r > 220 then some (pfx ++ "-red-600")
      else if r > 200 then some (pfx ++ "-red-700")
      else if r > 180 then some (pfx ++ "-red-800")
      else some (pfx ++ "-red-900")
    else if b > 170 ∧ r < 100 ∧ g < 160 then
      if b > 240 then some (pfx ++ "-blue-500")
      else if b > 220 then some (pfx ++ "-blue-600")
      else if b > 200 then some (pfx ++ "-blue-700")
      else if b > 180 then some (pfx ++ "-blue-800")
      else some (pfx ++ "-blue-900")
    else if a < 1 / 5 then some (pfx ++ "-transparent")
    else if a < 19 / 20 then some (pfx ++ "-opacity-" ++ intToStr (jsRound (a * 100)))
    else none

/-- `fontFamilyToTailwind` (index.js lines 925–936). -/
def fontFamilyToTailwind (fontFamily : String) : Option String :=
  if fontFamily = "" then none
  else
    let n := jsLower fontFamily
    if strContains n "inter" then some "font-sans"
    else if strContains n "helvetica" || strContains n "arial" then some "font-sans"
    else if strContains n "times" || strContains n "georgia" then some "font-serif"
    else if strContains n "mono" || strContains n "courier" then some "font-mono"
    else none

/-- `fontSizeToTailwind` (index.js lines 938–956). -/
def fontSizeToTailwind (fontSize : ℚ) : Option String :=
  if fontSize = 0 then none
  else if fontSize ≤ 12 then some "text-xs"
  else if fontSize ≤ 14 then some "text-sm"
  else if fontSize ≤ 16 then some "text-base"
  else if fontSize ≤ 18 then some "text-lg"
  else if fontSize ≤ 20 then some "text-xl"
  else if fontSize ≤ 24 then some "text-2xl"
  else if fontSize ≤ 30 then some "text-3xl"
  else if fontSize ≤ 36 then some "text-4xl"
  else if fontSize ≤ 48 then some "text-5xl"
  else if fontSize ≤ 60 then some "text-6xl"
  else if fontSize ≤ 72 then some "text-7xl"
  else if fontSize ≤ 96 then some "text-8xl"
  else if fontSize ≤ 128 then some "text-9xl"
  else none

/-- `fontWeightToTailwind` (index.js lines 958–972): above 900 clamps to
`font-black`. -/
def fontWeightToTailwind (fontWeight : ℚ) : Option String :=
  if fontWeight = 0 then none
  else if fontWeight ≤ 100 then some "font-thin"
  else if fontWeight ≤ 200 then some "font-extralight"
  else if fontWeight ≤ 300 then some "font-light"
  else if fontWeight ≤ 400 then some "font-normal"
  else if fontWeight ≤ 500 then some "font-medium"
  else if fontWeight ≤ 600 then some "font-semibold"
  else if fontWeight ≤ 700 then some "font-bold"
  else if fontWeight ≤ 800 then some "font-extrabold"
  else if fontWeight ≤ 900 then some "font-black"
  else some "font-black"

/-- `lineHeightToTailwind` (index.js lines 974–985). -/
def lineHeightToTailwind (lineHeight : ℚ) : Option String :=
  if lineHeight = 0 then none
  else if lineHeight ≤ 16 then some "leading-none"
  else if lineHeight ≤ 20 then some "leading-tight"
  else if lineHeight ≤ 24 then some "leading-snug"
  else if lineHeight ≤ 28 then some "leading-normal"
  else if lineHeight ≤ 32 then some "leading-relaxed"
  else if lineHeight ≤ 40 then some "leading-loose"
  else none

/-- `letterSpacingToTailwind` (index.js lines 987–998): note the leading
JS falsy check `if (!letterSpacing) return null`, which returns no class for
the input 0. -/
def letterSpacingToTailwind (letterSpacing : ℚ) : Option String :=
  if letterSpacing = 0 then none
  else if letterSpacing ≤ -1/20 then some "tracking-tighter"
  else if letterSpacing ≤ -1/40 then some "tracking-tight"
  else if -1/100 ≤ letterSpacing ∧ letterSpacing ≤ 1/100 then some "tracking-normal"
  else if letterSpacing ≥ 1/40 then some "tracking-wide"
  else if letterSpacing ≥ 1/20 then some "tracking-wider"
  else if letterSpacing ≥ 1/10 then some "tracking-widest"
  else none

/-- `textAlignToTailwind` (index.js lines 1000–1011). -/
def textAlignToTailwind (textAlign : String) : Option String :=
  if textAlign = "" then none
  else
    let a := jsLower textAlign
    if strContains a "left" then some "text-left"
    else if strContains a "center" then some "text-center"
    else if strContains a "right" then some "text-right"
    else if strContains a "justify" then some "text-justify"
    else none

/-! ### index.js optimizer helpers -/

/-- `guessComponentType` (index.js lines 311–350): the component-kind
classifier; rules evaluated top to bottom, first match wins. -/
def guessComponentType (n : RawNode) : String :=
  let p := n.props
  let nameLower := jsLower p.name
  if strContains nameLower "button" ||
      (p.type == "INSTANCE" && strContains nameLower "btn") then "button"
  else if strContains nameLower "modal" || strContains nameLower "dialog" ||
      (match n.children with
       | some cs => cs.any (fun c => strContains (jsLower c.props.name) "modal")
       | none => false) then "modal"
  else if strContains nameLower "card" ||
      ((match p.cornerRadius with | some v => decide (v ≠ 0) && decide (v > 0) | none => false) &&
       n.children.isSome) then "card"
  else if strContains nameLower "input" || strContains nameLower "field" ||
      strContains nameLower "form" then "input"
  else if strContains nameLower "alert" || strContains nameLower "notification" ||
      strContains nameLower "toast" then "alert"
  else if strContains nameLower "cancel" then "confirmation-dialog"
  else "unknown"

/-- `generateComponentHints` (index.js lines 352–391).  A SOLID fill without
a `color` object would throw in JS; the model substitutes a default color
there (outside the modelled domain). -/
def generateComponentHints (n : RawNode) : List String :=
  let p := n.props
  (if p.name == "" then []
   else
     [p.name] ++
     (if strContains (jsLower p.name) "cancel" then
       ["Cancel", "CancelDialog", "Confirmation", "ConfirmationDialog"]
     else [])) ++
  (if p.type == "INSTANCE" then ["Component: " ++ p.name] else []) ++
  (if p.fills.length > 0 then
    let colors := (p.fills.filter (fun f => f.type == "SOLID")).map (fun f =>
      let c := f.color.getD {}
      "rgb(" ++ intToStr (jsRound (c.r * 255)) ++ ", " ++
        intToStr (jsRound (c.g * 255)) ++ ", " ++ intToStr (jsRound (c.b * 255)) ++ ")")
    if colors.length > 0 then ["Colors: " ++ String.intercalate ", " colors] else []
  else [])

/-- The second `formatColor` of the repository (index.js lines 426–439):
`rgb(...)` when fully opaque, `rgba(...)` otherwise (never hex). -/
def formatColorRgb : Option FigmaColor → JSVal
  | none => .null
  | some c =>
    let r := jsRound (c.r * 255)
    let g := jsRound (c.g * 255)
    let b := jsRound (c.b * 255)
    let a := c.a.getD 1
    if a = 1 then
      .str ("rgb(" ++ intToStr r ++ ", " ++ intToStr g ++ ", " ++ intToStr b ++ ")")
    else
      .str ("rgba(" ++ intToStr r ++ ", " ++ intToStr g ++ ", " ++ intToStr b ++ ", " ++
        jsNumToString a ++ ")")

/-- The second `extractPadding` of the repository (index.js lines 441–450):
always an object, possibly empty. -/
def extractPaddingIdx (p : RawProps) : JSVal :=
  .obj
    ((match p.paddingLeft with | some v => [("left", JSVal.num v)] | none => []) ++
     (match p.paddingRight with | some v => [("right", JSVal.num v)] | none => []) ++
     (match p.paddingTop with | some v => [("top", JSVal.num v)] | none => []) ++
     (match p.paddingBottom with | some v => [("bottom", JSVal.num v)] | none => []))

/-- `extractProperties` (index.js lines 393–424). -/
def extractProperties (n : RawNode) : JSVal :=
  let p := n.props
  .obj
    ((match p.backgroundColor with
      | some c => [("backgroundColor", formatColorRgb (some c))]
      | none => []) ++
     (match p.cornerRadius with
      | some v => if v ≠ 0 then [("borderRadius", JSVal.num v)] else []
      | none => []) ++
     (if p.strokes.length > 0 then
       [("border", .obj
         [("width", .num (match p.strokeWeight with
            | some w => if w ≠ 0 then w else 1
            | none => 1)),
          ("style", .str "solid"),
          ("color", formatColorRgb (match p.strokes with | s :: _ => s.color | [] => none))])]
     else []) ++
     (match p.layoutMode with
      | some lm =>
        if lm ≠ "" then
          [("layout", .obj
            [("direction", .str (if lm == "HORIZONTAL" then "row" else "column")),
             ("gap", .num (match p.itemSpacing with
               | some v => if v ≠ 0 then v else 0
               | none => 0)),
             ("padding", extractPaddingIdx p)])]
        else []
      | none => []))

/-- `extractPaddingClasses` (index.js lines 755–815), including the `px-` /
`py-` simplification passes with their class-list filtering. -/
def extractPaddingClasses (p : RawProps) : List String :=
  if p.paddingLeft.isSome || p.paddingRight.isSome ||
      p.paddingTop.isSome || p.paddingBottom.isSome then
    if p.paddingLeft == p.paddingRight && p.paddingLeft == p.paddingTop &&
        p.paddingLeft == p.paddingBottom && p.paddingLeft.isSome then
      match p.paddingLeft with
      | some v => (match pxToTailwindSpacing v with | some c => ["p-" ++ c] | none => [])
      | none => []
    else
      let cs :=
        (match p.paddingLeft with
         | some v => (match pxToTailwindSpacing v with | some c => ["pl-" ++ c] | none => [])
         | none => []) ++
        (match p.paddingRight with
         | some v => (match pxToTailwindSpacing v with | some c => ["pr-" ++ c] | none => [])
         | none => []) ++
        (match p.paddingTop with
         | some v => (match pxToTailwindSpacing v with | some c => ["pt-" ++ c] | none => [])
         | none => []) ++
        (match p.paddingBottom with
         | some v => (match pxToTailwindSpacing v with | some c => ["pb-" ++ c] | none => [])
         | none => [])
      let cs2 :=
        if p.paddingLeft == p.paddingRight && p.paddingLeft.isSome then
          match p.paddingLeft with
          | some v =>
            (match pxToTailwindSpacing v with
             | some px =>
               (cs.filter (fun c => !(jsStartsWith c "pl-") && !(jsStartsWith c "pr-"))) ++
                 ["px-" ++ px]
             | none => cs)
          | none => cs
        else cs
      if p.paddingTop == p.paddingBottom && p.paddingTop.isSome then
        match p.paddingTop with
        | some v =>
          (match pxToTailwindSpacing v with
           | some py =>
             (cs2.filter (fun c => !(jsStartsWith c "pt-") && !(jsStartsWith c "pb-"))) ++
               ["py-" ++ py]
           | none => cs2)
        | none => cs2
      else cs2
  else []

/-- `radius ≥ c` where radius may be absent (JS `undefined >= c` is false). -/
def oGE (o : Option ℚ) (c : ℚ) : Bool :=
  match o with
  | some v => decide (v ≥ c)
  | none => false

/-- The first matching shadow tier of the `for … break` loop in
`extractShadowClasses`.  A DROP_SHADOW without an `offset` object would
throw in JS; the model reads `none` (false comparisons) there. -/
def findShadowTier : List RawEffect → Option String
  | [] => none
  | s :: tl =>
    if oGE s.radius 16 && oGE (s.offset.map (fun o => o.y)) 8 then some "shadow-xl"
    else if oGE s.radius 8 && oGE (s.offset.map (fun o => o.y)) 4 then some "shadow-lg"
    else if oGE s.radius 3 then some "shadow-md"
    else findShadowTier tl

/-- `extractShadowClasses` (index.js lines 817–855). -/
def extractShadowClasses (effects : List RawEffect) : List String :=
  let shadows := effects.filter (fun e => e.type == "DROP_SHADOW" && e.visible != some false)
  if shadows.length > 0 then
    match findShadowTier shadows with
    | some cls => [cls]
    | none => ["shadow"]
  else []

/-- `generateTailwindClasses` (index.js lines 558–631). -/
def generateTailwindClasses (n : RawNode) : List String :=
  let p := n.props
  (if p.layoutMode == some "HORIZONTAL" then ["flex", "flex-row"]
   else if p.layoutMode == some "VERTICAL" then ["flex", "flex-col"]
   else []) ++
  (match p.itemSpacing with
   | some v =>
     if v ≠ 0 then
       (match pxToTailwindSpacing v with | some g => ["gap-" ++ g] | none => [])
     else []
   | none => []) ++
  extractPaddingClasses p ++
  (match p.backgroundColor with
   | some bg => optToList (colorToTailwindClass (some bg) "bg")
   | none => []) ++
  (match p.cornerRadius with
   | some cr =>
     if cr ≠ 0 then
       (match pxToTailwindBorderRadius cr with | some r => ["rounded-" ++ r] | none => [])
     else []
   | none => []) ++
  (if p.strokes.length > 0 then
    optToList (colorToTailwindClass (match p.strokes with | s :: _ => s.color | [] => none)
      "border") ++
    (match p.strokeWeight with
     | some w =>
       if w ≠ 0 then
         (match pxToTailwindBorderWidth w with | some bw => ["border-" ++ bw] | none => [])
       else ["border"]
     | none => ["border"])
  else []) ++
  (match p.absoluteBoundingBox with
   | some bb =>
     (if bb.width ≠ 0 then optToList (pxToTailwindSize bb.width "w") else []) ++
     (if bb.height ≠ 0 then optToList (pxToTailwindSize bb.height "h") else [])
   | none => []) ++
  (if p.effects.length > 0 then extractShadowClasses p.effects else [])

/-- `extractTextStyle` (index.js lines 489–501). -/
def extractTextStyle (n : RawNode) : JSVal :=
  match n.props.style with
  | none => .obj []
  | some st =>
    .obj
      [("fontFamily", optStr st.fontFamily), ("fontSize", optNum st.fontSize),
       ("fontWeight", optNum st.fontWeight), ("lineHeight", optNum st.lineHeightPx),
       ("letterSpacing", optNum st.letterSpacing),
       ("textAlign", match st.textAlignHorizontal with
         | some s => .str (jsLower s)
         | none => .undef),
       ("color", if n.props.fills.length > 0 then
           formatColorRgb (match n.props.fills with | f :: _ => f.color | [] => none)
         else .null)]

/-- `generateTailwindTextClasses` (index.js lines 633–681). -/
def generateTailwindTextClasses (n : RawNode) : List String :=
  match n.props.style with
  | none => []
  | some st =>
    (match st.fontFamily with
     | some ff => if ff ≠ "" then optToList (fontFamilyToTailwind ff) else []
     | none => []) ++
    (match st.fontSize with
     | some v => if v ≠ 0 then optToList (fontSizeToTailwind v) else []
     | none => []) ++
    (match st.fontWeight with
     | some v => if v ≠ 0 then optToList (fontWeightToTailwind v) else []
     | none => []) ++
    (match st.lineHeightPx with
     | some v => if v ≠ 0 then optToList (lineHeightToTailwind v) else []
     | none => []) ++
    (match st.letterSpacing with
     | some v => if v ≠ 0 then optToList (letterSpacingToTailwind v) else []
     | none => []) ++
    (match st.textAlignHorizontal with
     | some s => if s ≠ "" then optToList (textAlignToTailwind s) else []
     | none => []) ++
    (if n.props.fills.length > 0 then
      match n.props.fills with
      | f :: _ =>
        (match f.color with
         | some c => optToList (colorToTailwindClass (some c) "text")
         | none => [])
      | [] => []
    else [])

mutual
/-- One element of `processChildren`'s map (index.js lines 455–486). -/
def processChild : RawNode → JSVal
  | c@(.mk _ cs) =>
    .obj
      ([("id", .str c.props.id), ("name", .str c.props.name),
        ("type", .str c.props.type),
        ("componentType", .str (guessComponentType c)),
        ("properties", extractProperties c),
        ("tailwindClasses", .arr ((generateTailwindClasses c).map .str))] ++
       (if c.props.type == "TEXT" then
         [("text", optStr c.props.characters), ("textStyle", extractTextStyle c),
          ("tailwindTextClasses", .arr ((generateTailwindTextClasses c).map .str))]
       else []) ++
       (match cs with
        | some l => if l.length > 0 then [("children", .arr (processChildList l))] else []
        | none => []) ++
       (if c.props.type == "INSTANCE" then
         [("componentId", optStr c.props.componentId)] ++
         (match c.props.componentProperties with
          | some cp => if jsTruthy cp then [("componentProperties", cp)] else []
          | none => [])
       else []))

/-- `processChildren`'s map over a child list. -/
def processChildList : List RawNode → List JSVal
  | [] => []
  | c :: tl => processChild c :: processChildList tl
end

/-- `processChildren` (index.js lines 452–487): `[]` when the children field
is absent. -/
def processChildren : Option (List RawNode) → List JSVal
  | none => []
  | some l => processChildList l

/-- `extractStyles` (index.js lines 503–525). -/
def extractStyles (n : RawNode) (projectStyles : Option JSVal) : JSVal :=
  let s1 : List (String × JSVal) :=
    match n.props.styles with
    | some st =>
      if jsTruthy st then (entriesOf st).foldl (fun acc kv => jsSet acc kv.1 kv.2) []
      else []
    | none => []
  let s2 :=
    match n.props.boundVariables with
    | some bv => if jsTruthy bv then jsSet s1 "variables" bv else s1
    | none => s1
  let s3 :=
    match projectStyles with
    | some ps => if jsTruthy ps then jsSet s2 "projectStyles" ps else s2
    | none => s2
  .obj s3

/-- `extractVariants` (index.js lines 527–543): only `componentProperties`
entries of kind VARIANT. -/
def extractVariants (n : RawNode) : JSVal :=
  if n.props.type != "INSTANCE" then .obj []
  else
    match n.props.componentProperties with
    | none => .obj []
    | some cp =>
      if !jsTruthy cp then .obj []
      else
        .obj ((entriesOf cp).foldl (fun acc kv =>
          if getKey kv.2 "type" == some (.str "VARIANT") then
            jsSet acc kv.1 ((getKey kv.2 "value").getD .undef)
          else acc) [])

/-- `extractInteractions` (index.js lines 545–555). -/
def extractInteractions (n : RawNode) : List JSVal :=
  if n.props.interactions.length == 0 then []
  else
    n.props.interactions.map (fun it =>
      .obj
        [("trigger", match it.trigger with | some t => optStr t.type | none => .undef),
         ("action", match it.actions with | a :: _ => optStr a.type | [] => .undef),
         ("target", match it.actions with | a :: _ => optStr a.destinationId | [] => .undef)])

/-- One channel of `rgbToHex` (index.js lines 1101–1108): pad only when the
hex has a single digit. -/
def toHexChannel (v : ℚ) : String :=
  let hx := intToHex (jsRound (v * 255))
  if hx.length == 1 then "0" ++ hx else hx

/-- `rgbToHex` (index.js lines 1101–1108). -/
def rgbToHex (r g b : ℚ) : String :=
  "#" ++ toHexChannel r ++ toHexChannel g ++ toHexChannel b

/-- Collapse runs of dashes (the JS global replace of one-or-more dashes by a
single dash), tracking the previous character. -/
def collapseD (prev : Option Char) : List Char → List Char
  | [] => []
  | c :: tl =>
    if c = '-' ∧ prev = some '-' then collapseD prev tl
    else c :: collapseD (some c) tl

/-- The JS global replace of an anchored leading or trailing dash by nothing:
removes one leading and one trailing dash. -/
def trimDashes (l : List Char) : List Char :=
  let l1 := match l with | '-' :: tl => tl | other => other
  if l1.getLast? == some '-' then l1.dropLast else l1

/-- The slugified base name of `suggestColorName`. -/
def slugName (s : String) : String :=
  String.mk (trimDashes (collapseD none ((jsLower s).data.map (fun c =>
    if ('a' ≤ c ∧ c ≤ 'z') ∨ ('0' ≤ c ∧ c ≤ '9') then c else '-'))))

/-- `parseInt(hexColor.substr(i, 2), 16)` for the well-formed hex strings
`rgbToHex` produces. -/
def hexPairAt (s : String) (i : Nat) : Nat :=
  match s.data.drop i with
  | c1 :: c2 :: _ => hexVal c1 * 16 + hexVal c2
  | _ => 0

/-- `suggestColorName` (index.js lines 1111–1150). -/
def suggestColorName (componentName : String) (hexColor : String) : String :=
  let baseName := slugName componentName
  if hexColor == "#000000" then "black"
  else if hexColor == "#ffffff" then "white"
  else
    let r := hexPairAt hexColor 1
    let g := hexPairAt hexColor 3
    let b := hexPairAt hexColor 5
    let colorFamily :=
      if r > g ∧ r > b then "red"
      else if g > r ∧ g > b then "green"
      else if b > r ∧ b > g then "blue"
      else if r = g ∧ g = b then "gray"
      else if r > 200 ∧ g > 200 ∧ b < 100 then "yellow"
      else if r > 200 ∧ g < 100 ∧ b > 200 then "purple"
      else if r < 100 ∧ g > 200 ∧ b > 200 then "cyan"
      else ""
    let brightness : ℚ := ((r : ℚ) + (g : ℚ) + (b : ℚ)) / 3
    let brightnessSuffix :=
      if brightness < 85 then "dark"
      else if brightness > 170 then "light"
      else ""
    if strContains baseName colorFamily then
      if brightnessSuffix ≠ "" then baseName ++ "-" ++ brightnessSuffix else baseName
    else
      if brightnessSuffix ≠ "" then baseName ++ "-" ++ colorFamily ++ "-" ++ brightnessSuffix
      else baseName ++ "-" ++ colorFamily

mutual
/-- `findTextNodes` (index.js lines 1086–1098): the node itself when TEXT,
then all TEXT descendants in order. -/
def findTextNodes : RawNode → List RawNode
  | n@(.mk _ cs) =>
    (if n.props.type == "TEXT" then [n] else []) ++
    (match cs with
     | some l => findTextNodesL l
     | none => [])

/-- `findTextNodes` over a child list. -/
def findTextNodesL : List RawNode → List RawNode
  | [] => []
  | c :: tl => findTextNodes c ++ findTextNodesL tl
end

/-- `generateImplementationGuide` (index.js lines 1013–1083). -/
def generateImplementationGuide (n : RawNode) : JSVal :=
  let componentType := guessComponentType n
  let tailwindClasses := generateTailwindClasses n
  let approach :=
    if componentType == "confirmation-dialog" then
      "\nThis appears to be a confirmation dialog component. Consider using:\n- Check if the host project already has a Dialog or Modal component\n- Use existing Button components for the actions\n- For the layout, use Tailwind flex utilities (" ++
      String.intercalate ", " (tailwindClasses.filter (fun c => jsStartsWith c "flex")) ++
      ")\n- If the project uses React, consider using headlessui/Dialog or similar accessible components\n"
    else if componentType == "button" then
      "\nThis appears to be a button component. Consider using:\n- Check if the host project already has a Button component with variants\n- For styling, use the Tailwind classes: " ++
      String.intercalate " " tailwindClasses ++
      "\n- Match the existing button naming patterns in the project\n"
    else
      "\nThis component can be implemented using the generated Tailwind classes.\nLook for similar components in the host project to maintain consistency.\n"
  let bgColors : List JSVal :=
    match n.props.backgroundColor with
    | some bg =>
      if colorToTailwindClass (some bg) "bg" == none then
        let hx := rgbToHex bg.r bg.g bg.b
        [.obj [("name", .str (suggestColorName n.props.name hx)), ("value", .str hx)]]
      else []
    | none => []
  let textColors : List JSVal :=
    match n.children with
    | some _ =>
      (findTextNodes n).foldr (fun t acc =>
        (if t.props.fills.length > 0 then
          match t.props.fills with
          | f :: _ =>
            if f.type == "SOLID" && colorToTailwindClass f.color "text" == none then
              let c := f.color.getD {}
              let hx := rgbToHex c.r c.g c.b
              [JSVal.obj [("name", .str (suggestColorName (t.props.name ++ "-text") hx)),
                ("value", .str hx)]]
            else []
          | [] => []
        else []) ++ acc) []
    | none => []
  .obj
    [("recommendedApproach", .str approach),
     ("tailwindConfig", .obj
       [("customColors", .arr (bgColors ++ textColors)),
        ("customFontFamily", .arr []),
        ("customSpacing", .arr [])])]

/-- The raw API response handed to the optimizer: either a nullish value or
an object with an optional `document` and optional `styles`. -/
inductive FigmaInput where
  | nullish : FigmaInput
  | response : Option RawNode → Option JSVal → FigmaInput

/-- Result of `optimizeFigmaData`: either the untouched input (identity
passthrough) or the optimized wrapper carrying `originalData` plus the
`component` record. -/
inductive OptimizeResult where
  | passthrough : FigmaInput → OptimizeResult
  | optimized : FigmaInput → JSVal → OptimizeResult

/-- `optimizeFigmaData` (index.js lines 280–308): identity passthrough when
the input is nullish or lacks `document`; otherwise the `OptimizedComponent`
whose `originalData` is the untouched input. -/
def optimizeFigmaData : FigmaInput → OptimizeResult
  | .nullish => .passthrough .nullish
  | .response none st => .passthrough (.response none st)
  | .response (some doc) st =>
    .optimized (.response (some doc) st)
      (.obj
        [("name", .str doc.props.name), ("type", .str doc.props.type),
         ("id", .str doc.props.id),
         ("componentType", .str (guessComponentType doc)),
         ("componentHints", .arr ((generateComponentHints doc).map .str)),
         ("properties", extractProperties doc),
         ("tailwindClasses", .arr ((generateTailwindClasses doc).map .str)),
         ("children", .arr (processChildren doc.children)),
         ("styles", extractStyles doc st),
         ("variants", extractVariants doc),
         ("interactionPatterns", .arr (extractInteractions doc)),
         ("implementationGuide", generateImplementationGuide doc)])

/-! ### Spec-side definitions (formalizing the claims' own wording) -/

/-- The spacing ladder exactly as the spec lists it. -/
def spacingLadder : List (ℚ × String) :=
  [(1, "0.5"), (2, "1"), (3, "1.5"), (5, "2"), (7, "3"), (10, "4"), (14, "5"),
   (18, "6"), (22, "7"), (26, "8"), (34, "10"), (42, "12"), (56, "16")]

/-- First class of an ascending ladder whose inclusive upper bound the input
satisfies (the spec's description of the quantizer ladders). -/
def firstLadderClass (px : ℚ) : List (ℚ × String) → Option String
  | [] => none
  | (bound, cls) :: tl => if px ≤ bound then some cls else firstLadderClass px tl

/-- Two lowercase hex digits of `n < 256` (the claim's "zero-padded" hex
byte). -/
def hexPair (n : Nat) : String := String.mk [hexCh (n / 16), hexCh (n % 16)]

/-- The color formatter as the amended claim words it: channels scaled ×255
and rounded half-up; alpha 1 or absent gives 6-digit lowercase zero-padded
hex; otherwise `rgba(r, g, b, a)` with the alpha as given. -/
def formatColorSpec (r g b : ℚ) (a : Option ℚ) : String :=
  let rr := ⌊r * 255 + 1 / 2⌋
  let gg := ⌊g * 255 + 1 / 2⌋
  let bb := ⌊b * 255 + 1 / 2⌋
  if a.getD 1 = 1 then
    "#" ++ hexPair rr.toNat ++ hexPair gg.toNat ++ hexPair bb.toNat
  else
    "rgba(" ++ intToStr rr ++ ", " ++ intToStr gg ++ ", " ++ intToStr bb ++ ", " ++
      jsNumToString (a.getD 1) ++ ")"

/-- The 11 gray shade suffixes of the brightness ladder. -/
def grayShadeNames : List String :=
  ["950", "900", "800", "700", "600", "500", "400", "300", "200", "100", "50"]

/-- The 11-step brightness ladder of the gray branch. -/
def grayShadeOf (brightness : ℚ) : String :=
  if brightness < 30 then "950"
  else if brightness < 50 then "900"
  else if brightness < 80 then "800"
  else if brightness < 110 then "700"
  else if brightness < 135 then "600"
  else if brightness < 160 then "500"
  else if brightness < 185 then "400"
  else if brightness < 210 then "300"
  else if brightness < 230 then "200"
  else if brightness < 245 then "100"
  else "50"

/-- The claim's grayscale condition: all three channels within 10 of each
other (pairwise). -/
def allWithin10 (r g b : Int) : Prop := |r - g| ≤ 10 ∧ |r - b| ≤ 10 ∧ |g - b| ≤ 10

/-- Whether a matcher result is one of the 11 gray ladder classes for the
given class prefix. -/
def isGrayClass (o : Option String) (pfx : String) : Prop :=
  ∃ nm ∈ grayShadeNames, o = some (pfx ++ "-gray-" ++ nm)

/-! ### Parser fuel-cost of a rendered value -/

/-- `restOk rest`: the rendered value is not followed directly by a digit or
a decimal point (true of every position a JSON renderer puts a value in), so
number parsing stops at the value boundary. -/
def restOk : List Char → Prop
  | [] => True
  | c :: _ => isDigitCh c = false ∧ c ≠ '.'

mutual
/-- Fuel needed by `parseV` on the rendering of `v`. -/
def costV : JSVal → Nat
  | .undef => 1
  | .null => 1
  | .bool _ => 1
  | .num _ => 1
  | .str _ => 1
  | .arr xs => 1 + costArrB xs
  | .obj ms => 1 + costObjB ms

/-- Fuel needed by `parseArrBody` on a rendered element list. -/
def costArrB : List JSVal → Nat
  | [] => 1
  | x :: xs => 1 + costV x + costArrRest xs

/-- Fuel needed by `parseArrRest` on a rendered element tail. -/
def costArrRest : List JSVal → Nat
  | [] => 1
  | x :: xs => 1 + costV x + costArrRest xs

/-- Fuel needed by `parseObjBody` on a rendered member list (skipped
`undefined` members cost nothing, exactly as they are not rendered). -/
def costObjB : List (String × JSVal) → Nat
  | [] => 1
  | (_, v) :: tl =>
    match v with
    | .undef => costObjB tl
    | _ => 2 + costV v + costObjRest tl

/-- Fuel needed by `parseObjRest` on a rendered member tail. -/
def costObjRest : List (String × JSVal) → Nat
  | [] => 1
  | (_, v) :: tl =>
    match v with
    | .undef => costObjRest tl
    | _ => 2 + costV v + costObjRest tl
end

/-! ### Concrete example values used by witnesses and counterexamples -/

/-- A node carrying both a uniform `cornerRadius` and an individual
`topLeftRadius`. -/
def nodeBothRadii : RawNode := .mk { cornerRadius := some 5, topLeftRadius := some 4 } none

/-- A node with only `topLeftRadius = 4` (the spec's corner example). -/
def nodeOnlyTopLeft : RawNode := .mk { topLeftRadius := some 4 } none

/-- A node named "Cancel Modal" (the spec's classifier example). -/
def nodeCancelModal : RawNode :=
  .mk { id := "9:9", name := "Cancel Modal", type := "FRAME" } none

/-- A TEXT node without a `characters` field: its normalization carries a
`textContent` member whose value is `undefined`. -/
def nodeTextNoChars : RawNode := .mk { id := "1", name := "t", type := "TEXT" } none

/-- A node with a stroke, a stroke weight and a stroke align. -/
def nodeWithStrokes : RawNode :=
  .mk { strokes := [{ type := "SOLID" }], strokeWeight := some 2,
        strokeAlign := some "INSIDE" } none

/-- A node with `strokeWeight` and `strokeAlign` but an empty `strokes`
array. -/
def nodeWeightNoStrokes : RawNode :=
  .mk { strokeWeight := some 2, strokeAlign := some "INSIDE" } none

/-- The spec's end-to-end example node (used as a round-trip witness). -/
def nodeBtn : RawNode :=
  .mk { id := "1:1", name := "Btn", type := "FRAME",
        absoluteBoundingBox := some { x := 0, y := 0, width := 100, height := 40 },
        backgroundColor := some { r := 0, g := 2/5, b := 1, a := some 1 },
        cornerRadius := some 4 } none

/-- A color whose rounded channels are (100, 91, 109): red is within 10 of
both others, but green and blue differ by 18. -/
def colorRG9 : FigmaColor := { r := 100/255, g := 91/255, b := 109/255, a := some 1 }

/-- A uniform mid-gray color (rounded channels (120, 120, 120)). -/
def colorGray120 : FigmaColor := { r := 120/255, g := 120/255, b := 120/255, a := some 1 }

/-! ### Theorems -/

set_option maxRecDepth 4096 in
theorem hexPad_eq : ∀ m : Nat, m ≤ 255 → padStart2 (intToHex (m : Int)) = hexPair m := by
  decide

theorem jsRound_channel (x : ℚ) (h0 : 0 ≤ x) (h1 : x ≤ 1) :
    0 ≤ ⌊x * 255 + 1 / 2⌋ ∧ ⌊x * 255 + 1 / 2⌋ ≤ 255 := by
  constructor
  · exact Int.le_floor.mpr (by push_cast; linarith)
  · have h : ⌊x * 255 + 1 / 2⌋ < 256 := Int.floor_lt.mpr (by push_cast; linarith)
    omega

/-- C3 (corrected): the color formatter scales each channel by 255 with
round-half-up; alpha equal to 1 or absent yields the 6-digit lowercase
zero-padded hex string; any other alpha yields the `rgba(r, g, b, a)` string
(with a space after each comma) carrying the alpha as given. -/
theorem formatColor_spec_correct (c : FigmaColor)
    (hr0 : 0 ≤ c.r) (hr1 : c.r ≤ 1) (hg0 : 0 ≤ c.g) (hg1 : c.g ≤ 1)
    (hb0 : 0 ≤ c.b) (hb1 : c.b ≤ 1) :
    formatColor (some c) = .str (formatColorSpec c.r c.g c.b c.a) := by
  have hr := jsRound_channel c.r hr0 hr1
  have hg := jsRound_channel c.g hg0 hg1
  have hb := jsRound_channel c.b hb0 hb1
  simp only [formatColor, formatColorSpec, jsRound]
  by_cases ha : c.a.getD 1 = 1
  · rw [if_pos ha, if_pos ha]
    have e1 : padStart2 (intToHex ⌊c.r * 255 + 1 / 2⌋) = hexPair ⌊c.r * 255 + 1 / 2⌋.toNat := by
      rw [show ⌊c.r * 255 + 1 / 2⌋ = ((⌊c.r * 255 + 1 / 2⌋.toNat : Nat) : Int) from
        (Int.toNat_of_nonneg hr.1).symm]
      exact hexPad_eq _ (by omega)
    have e2 : padStart2 (intToHex ⌊c.g * 255 + 1 / 2⌋) = hexPair ⌊c.g * 255 + 1 / 2⌋.toNat := by
      rw [show ⌊c.g * 255 + 1 / 2⌋ = ((⌊c.g * 255 + 1 / 2⌋.toNat : Nat) : Int) from
        (Int.toNat_of_nonneg hg.1).symm]
      exact hexPad_eq _ (by omega)
    have e3 : padStart2 (intToHex ⌊c.b * 255 + 1 / 2⌋) = hexPair ⌊c.b * 255 + 1 / 2⌋.toNat := by
      rw [show ⌊c.b * 255 + 1 / 2⌋ = ((⌊c.b * 255 + 1 / 2⌋.toNat : Nat) : Int) from
        (Int.toNat_of_nonneg hb.1).symm]
      exact hexPad_eq _ (by omega)
    rw [e1, e2, e3]
  · rw [if_neg ha, if_neg ha]

unseal Rat.add Rat.mul Rat.inv Rat.sub in
/-- C3 witness: the amended formatter at the spec's two example colors. -/
theorem formatColor_spec_correct_witness :
    formatColor (some { r := 1, g := 1, b := 1, a := some 1 }) = .str "#ffffff" ∧
    formatColor (some { r := 0, g := 0, b := 0, a := some (1/2) }) =
      .str "rgba(0, 0, 0, 0.5)" :=
  ⟨(formatColor_spec_correct { r := 1, g := 1, b := 1, a := some 1 }
      (by norm_num) (by norm_num) (by norm_num) (by norm_num) (by norm_num)
      (by norm_num)).trans (by decide),
   (formatColor_spec_correct { r := 0, g := 0, b := 0, a := some (1/2) }
      (by norm_num) (by norm_num) (by norm_num) (by norm_num) (by norm_num)
      (by norm_num)).trans (by decide)⟩

unseal Rat.add Rat.mul Rat.inv Rat.sub in
/-- C3 counterexample: the claim's literal rgba example string (no spaces
after the commas) differs from what the code produces. -/
theorem formatColor_rgba_spacing_cx :
    formatColor (some { r := 0, g := 0, b := 0, a := some (1/2) }) ≠
      .str "rgba(0,0,0,0.5)" := by decide

unseal Rat.add Rat.mul Rat.inv Rat.sub in
/-- C4 counterexample: at input 0 the ladder's first bound (`0 ≤ 1`) is
satisfied, so the claim demands class "0.5", but the code's `px <= 0` guard
returns no class. -/
theorem pxToTailwindSpacing_zero_cx :
    pxToTailwindSpacing 0 ≠ firstLadderClass 0 spacingLadder ∧
    firstLadderClass 0 spacingLadder = some "0.5" ∧
    pxToTailwindSpacing 0 = none := by decide

/-- C4 (corrected): for positive inputs the spacing mapper returns the first
class of the ascending ladder whose inclusive upper bound the input
satisfies (none above 56); inputs `≤ 0` get no class. -/
theorem pxToTailwindSpacing_ladder (px : ℚ) :
    (px ≤ 0 → pxToTailwindSpacing px = none) ∧
    (0 < px → pxToTailwindSpacing px = firstLadderClass px spacingLadder) := by
  constructor
  · intro h
    simp only [pxToTailwindSpacing]
    rw [if_pos h]
  · intro h
    simp only [pxToTailwindSpacing, spacingLadder, firstLadderClass]
    rw [if_neg (not_le.mpr h)]

unseal Rat.add Rat.mul Rat.inv Rat.sub in
/-- C4 witness: the spec's boundary examples, via the amended theorem. -/
theorem pxToTailwindSpacing_ladder_witness :
    pxToTailwindSpacing 7 = some "3" ∧ pxToTailwindSpacing 8 = some "4" ∧
    pxToTailwindSpacing 57 = none :=
  ⟨((pxToTailwindSpacing_ladder 7).2 (by norm_num)).trans (by decide),
   ((pxToTailwindSpacing_ladder 8).2 (by norm_num)).trans (by decide),
   ((pxToTailwindSpacing_ladder 57).2 (by norm_num)).trans (by decide)⟩

unseal Rat.add Rat.mul Rat.inv Rat.sub in
/-- C8 counterexample: letter spacing exactly 0 lies within the claim's
normal band, yet the JS falsy guard `if (!letterSpacing)` returns no class. -/
theorem letterSpacingToTailwind_zero_cx :
    letterSpacingToTailwind 0 ≠ some "tracking-normal" ∧
    ((-1/100 : ℚ) ≤ 0 ∧ (0 : ℚ) ≤ 1/100) ∧
    letterSpacingToTailwind 0 = none := by decide

/-- C8 (corrected): every nonzero letter-spacing value in [-0.01, 0.01] maps
to the normal tracking class; exactly 0 maps to no class; and every value
`≥ 0.025` maps to `tracking-wide` (the first of the overlapping positive
rules in listed order). -/
theorem letterSpacingToTailwind_correct (ls : ℚ) :
    (ls = 0 → letterSpacingToTailwind ls = none) ∧
    (ls ≠ 0 → -1/100 ≤ ls → ls ≤ 1/100 →
      letterSpacingToTailwind ls = some "tracking-normal") ∧
    (1/40 ≤ ls → letterSpacingToTailwind ls = some "tracking-wide") := by
  refine ⟨fun h => ?_, fun h0 h1 h2 => ?_, fun h => ?_⟩
  · simp only [letterSpacingToTailwind]
    rw [if_pos h]
  · simp only [letterSpacingToTailwind]
    rw [if_neg h0, if_neg (by intro hc; linarith), if_neg (by intro hc; linarith),
      if_pos ⟨h1, h2⟩]
  · simp only [letterSpacingToTailwind]
    rw [if_neg (by intro hc; rw [hc] at h; linarith), if_neg (by intro hc; linarith),
      if_neg (by intro hc; linarith), if_neg (by rintro ⟨-, hc⟩; linarith),
      if_pos (by linarith)]

unseal Rat.add Rat.mul Rat.inv Rat.sub in
/-- C8 witness: the amended theorem at 0.005 (normal), 0.1 (wide — the
"widest" threshold still yields the first-listed wide class), and 0. -/
theorem letterSpacingToTailwind_correct_witness :
    letterSpacingToTailwind (1/200) = some "tracking-normal" ∧
    letterSpacingToTailwind (1/10) = some "tracking-wide" ∧
    letterSpacingToTailwind 0 = none :=
  ⟨(letterSpacingToTailwind_correct (1/200)).2.1 (by norm_num) (by norm_num) (by norm_num),
   (letterSpacingToTailwind_correct (1/10)).2.2 (by norm_num),
   (letterSpacingToTailwind_correct 0).1 rfl⟩

/-- C5 (confirmed): the modal name rule is evaluated before the cancel rule:
a node whose lowercased name contains "modal" never classifies as
"confirmation-dialog", and every node named "Cancel Modal" classifies as
"modal". -/
theorem guessComponentType_modal_before_cancel (n : RawNode) :
    (strContains (jsLower n.props.name) "modal" = true →
      guessComponentType n ≠ "confirmation-dialog") ∧
    (n.props.name = "Cancel Modal" → guessComponentType n = "modal") := by
  constructor
  · intro hm
    simp only [guessComponentType]
    split_ifs with h1 h2 h3 h4 h5 h6 <;> try decide
    · exact absurd (by simp [hm]) h2
  · intro hn
    have hlow : jsLower "Cancel Modal" = "cancel modal" := by decide
    have hb : strContains "cancel modal" "button" = false := by decide
    have hbtn : strContains "cancel modal" "btn" = false := by decide
    have hmod : strContains "cancel modal" "modal" = true := by decide
    simp only [guessComponentType, hn, hlow, hb, hbtn, hmod]
    simp

/-- C5 witness: the concrete "Cancel Modal" node. -/
theorem guessComponentType_modal_before_cancel_witness :
    guessComponentType nodeCancelModal = "modal" ∧
    guessComponentType nodeCancelModal ≠ "confirmation-dialog" :=
  ⟨(guessComponentType_modal_before_cancel nodeCancelModal).2 rfl,
   (guessComponentType_modal_before_cancel nodeCancelModal).1 (by decide)⟩

/-- C6 (confirmed): the optimizer returns its input unchanged when the input
is nullish or lacks a `document`, and otherwise returns an optimized value
whose `originalData` is the untouched input. -/
theorem optimizeFigmaData_shape (x : FigmaInput) :
    ((x = .nullish ∨ ∃ st, x = .response none st) → optimizeFigmaData x = .passthrough x) ∧
    (∀ d st, x = .response (some d) st → ∃ comp, optimizeFigmaData x = .optimized x comp) := by
  constructor
  · rintro (rfl | ⟨st, rfl⟩) <;> rfl
  · rintro d st rfl
    exact ⟨_, rfl⟩

/-- C6 witness: passthrough on a nullish input and optimized output on the
example node. -/
theorem optimizeFigmaData_shape_witness :
    optimizeFigmaData .nullish = .passthrough .nullish ∧
    (∃ comp, optimizeFigmaData (.response (some nodeBtn) none) =
      .optimized (.response (some nodeBtn) none) comp) :=
  ⟨(optimizeFigmaData_shape .nullish).1 (Or.inl rfl),
   (optimizeFigmaData_shape (.response (some nodeBtn) none)).2 nodeBtn none rfl⟩

theorem extractNodeProperties_mk (p : RawProps) (cs : Option (List RawNode)) :
    extractNodeProperties (.mk p cs) =
      .obj (segBase p ++ segBBox p ++ segRotation p ++ segBackground p ++
        segFills p ++ segStrokes p ++ segCornerRadius p ++ segCornerRadii p ++
        segEffects p ++ segLayout p ++ segText p ++ segInstance p ++
        segConstraints p ++ segChildren cs) := by
  unfold extractNodeProperties segChildren
  cases cs <;> rfl

theorem lookupM_append (A B : List (String × JSVal)) (k : String) :
    lookupM (A ++ B) k = (lookupM A k).or (lookupM B k) := by
  induction A with
  | nil => simp [lookupM]
  | cons h tl ih =>
    obtain ⟨k', v⟩ := h
    by_cases hk : (k' == k) = true <;> simp [lookupM, hk, ih]

theorem lookupM_segBase_cr (p : RawProps) : lookupM (segBase p) "cornerRadius" = none := rfl

theorem lookupM_segBase_crr (p : RawProps) : lookupM (segBase p) "cornerRadii" = none := rfl

theorem lookupM_segBase_st (p : RawProps) : lookupM (segBase p) "strokes" = none := rfl

theorem lookupM_segBase_sw (p : RawProps) : lookupM (segBase p) "strokeWeight" = none := rfl

theorem lookupM_segBase_sa (p : RawProps) : lookupM (segBase p) "strokeAlign" = none := rfl

theorem lookupM_segBBox (p : RawProps) (k : String)
    (h1 : ("position" == k) = false) (h2 : ("size" == k) = false) :
    lookupM (segBBox p) k = none := by
  unfold segBBox
  cases p.absoluteBoundingBox <;> simp [lookupM, h1, h2]

theorem lookupM_segRotation (p : RawProps) (k : String)
    (h : ("rotation" == k) = false) : lookupM (segRotation p) k = none := by
  unfold segRotation
  cases p.rotation <;> simp [lookupM, h]

theorem lookupM_segBackground (p : RawProps) (k : String)
    (h : ("backgroundColor" == k) = false) : lookupM (segBackground p) k = none := by
  unfold segBackground
  cases p.backgroundColor <;> simp [lookupM, h]

theorem lookupM_segFills (p : RawProps) (k : String)
    (h : ("fills" == k) = false) : lookupM (segFills p) k = none := by
  unfold segFills
  split <;> simp [lookupM, h]

theorem lookupM_segStrokes (p : RawProps) (k : String)
    (h1 : ("strokes" == k) = false) (h2 : ("strokeWeight" == k) = false)
    (h3 : ("strokeAlign" == k) = false) : lookupM (segStrokes p) k = none := by
  unfold segStrokes
  split
  · cases p.strokeWeight <;> cases p.strokeAlign <;>
      simp [lookupM, lookupM_append, h1, h2, h3]
  · rfl

theorem lookupM_segCornerRadius (p : RawProps) (k : String)
    (h : ("cornerRadius" == k) = false) : lookupM (segCornerRadius p) k = none := by
  unfold segCornerRadius
  cases p.cornerRadius <;> simp [lookupM, h]

theorem lookupM_segCornerRadii (p : RawProps) (k : String)
    (h : ("cornerRadii" == k) = false) : lookupM (segCornerRadii p) k = none := by
  unfold segCornerRadii
  split <;> simp [lookupM, h]

theorem lookupM_segEffects (p : RawProps) (k : String)
    (h : ("effects" == k) = false) : lookupM (segEffects p) k = none := by
  unfold segEffects
  split <;> simp [lookupM, h]

theorem lookupM_segLayout (p : RawProps) (k : String)
    (h : ("layout" == k) = false) : lookupM (segLayout p) k = none := by
  unfold segLayout
  cases p.layoutMode <;> simp [lookupM, h]

theorem lookupM_segText (p : RawProps) (k : String)
    (h1 : ("textContent" == k) = false) (h2 : ("textStyle" == k) = false) :
    lookupM (segText p) k = none := by
  unfold segText
  split
  · cases p.style <;> simp [lookupM, lookupM_append, h1, h2]
  · rfl

theorem lookupM_segInstance (p : RawProps) (k : String)
    (h1 : ("componentId" == k) = false) (h2 : ("componentProperties" == k) = false) :
    lookupM (segInstance p) k = none := by
  unfold segInstance
  split
  · cases p.componentProperties with
    | none => simp [lookupM, lookupM_append, h1, h2]
    | some cp =>
      by_cases hj : jsTruthy cp = true <;> simp [lookupM, lookupM_append, h1, h2, hj]
  · rfl

theorem lookupM_segConstraints (p : RawProps) (k : String)
    (h : ("constraints" == k) = false) : lookupM (segConstraints p) k = none := by
  unfold segConstraints
  cases p.constraints with
  | none => rfl
  | some c => simp only []; split <;> simp [lookupM, h]

theorem lookupM_segChildren (cs : Option (List RawNode)) (k : String)
    (h : ("children" == k) = false) :
    lookupM (segChildren cs) k = none := by
  unfold segChildren
  cases cs with
  | none => rfl
  | some l => by_cases hl : 0 < l.length <;> simp [lookupM, h, hl]

theorem lookupM_segCornerRadius_self (p : RawProps) :
    lookupM (segCornerRadius p) "cornerRadius" = p.cornerRadius.map JSVal.num := by
  unfold segCornerRadius
  cases p.cornerRadius <;> simp [lookupM]

theorem lookupM_segCornerRadii_self (p : RawProps) :
    lookupM (segCornerRadii p) "cornerRadii" =
      (if p.topLeftRadius.isSome || p.topRightRadius.isSome ||
          p.bottomLeftRadius.isSome || p.bottomRightRadius.isSome then
        some (.obj
          [("topLeft", .num (jsOrZero p.topLeftRadius)),
           ("topRight", .num (jsOrZero p.topRightRadius)),
           ("bottomRight", .num (jsOrZero p.bottomRightRadius)),
           ("bottomLeft", .num (jsOrZero p.bottomLeftRadius))])
      else none) := by
  unfold segCornerRadii
  split <;> simp_all [lookupM]

theorem lookupM_segStrokes_st (p : RawProps) :
    (lookupM (segStrokes p) "strokes").isSome = decide (0 < p.strokes.length) := by
  unfold segStrokes
  split <;> rename_i h
  · simp_all [lookupM]
  · simp_all [lookupM]

theorem lookupM_segStrokes_sw (p : RawProps) :
    (lookupM (segStrokes p) "strokeWeight").isSome =
      (decide (0 < p.strokes.length) && p.strokeWeight.isSome) := by
  unfold segStrokes
  split <;> rename_i h
  · cases p.strokeWeight <;> cases p.strokeAlign <;>
      simp_all [lookupM, lookupM_append]
  · simp_all [lookupM]

theorem lookupM_segStrokes_sa (p : RawProps) :
    (lookupM (segStrokes p) "strokeAlign").isSome =
      (decide (0 < p.strokes.length) && p.strokeAlign.isSome) := by
  unfold segStrokes
  split <;> rename_i h
  · cases p.strokeWeight <;> cases p.strokeAlign <;>
      simp_all [lookupM, lookupM_append]
  · simp_all [lookupM]

/-- C1 (confirmed): for every raw node, the normalized output's `id` and
`type` equal the input's, and `visible` is `true` unless the raw `visible`
is exactly `false` (absent defaults to `true`). -/
theorem extractNodeProperties_base (n : RawNode) :
    getKey (extractNodeProperties n) "id" = some (.str n.props.id) ∧
    getKey (extractNodeProperties n) "type" = some (.str n.props.type) ∧
    getKey (extractNodeProperties n) "visible" =
      some (.bool (n.props.visible != some false)) := by
  cases n with
  | mk p cs => exact ⟨rfl, rfl, rfl⟩

set_option maxRecDepth 100000 in
/-- C2 counterexample: a node with both `cornerRadius = 5` and
`topLeftRadius = 4` gets BOTH keys in its normalized output, refuting the
claimed mutual exclusion. -/
theorem cornerRadius_both_cx :
    hasKey (extractNodeProperties nodeBothRadii) "cornerRadius" = true ∧
    hasKey (extractNodeProperties nodeBothRadii) "cornerRadii" = true := by decide

set_option maxRecDepth 100000 in
/-- C2 (corrected): `cornerRadius` is present iff the raw field is defined,
and `cornerRadii` is present iff some individual corner is defined (missing
corners defaulting to 0) — the two keys are independent and can coexist; a
node with only `topLeftRadius = 4` still yields
`cornerRadii = (4, 0, 0, 0)` and no `cornerRadius` key. -/
theorem cornerRadius_keys :
    (∀ n : RawNode,
      hasKey (extractNodeProperties n) "cornerRadius" = n.props.cornerRadius.isSome ∧
      hasKey (extractNodeProperties n) "cornerRadii" =
        (n.props.topLeftRadius.isSome || n.props.topRightRadius.isSome ||
         n.props.bottomLeftRadius.isSome || n.props.bottomRightRadius.isSome) ∧
      getKey (extractNodeProperties n) "cornerRadii" =
        (if n.props.topLeftRadius.isSome || n.props.topRightRadius.isSome ||
            n.props.bottomLeftRadius.isSome || n.props.bottomRightRadius.isSome then
          some (.obj
            [("topLeft", .num (jsOrZero n.props.topLeftRadius)),
             ("topRight", .num (jsOrZero n.props.topRightRadius)),
             ("bottomRight", .num (jsOrZero n.props.bottomRightRadius)),
             ("bottomLeft", .num (jsOrZero n.props.bottomLeftRadius))])
        else none)) ∧
    (hasKey (extractNodeProperties nodeOnlyTopLeft) "cornerRadius" = false ∧
     getKey (extractNodeProperties nodeOnlyTopLeft) "cornerRadii" =
       some (.obj [("topLeft", .num 4), ("topRight", .num 0),
         ("bottomRight", .num 0), ("bottomLeft", .num 0)])) := by
  constructor
  · intro n
    cases n with
    | mk p cs =>
      refine ⟨?_, ?_, ?_⟩
      · simp [extractNodeProperties_mk, getKey, hasKey, lookupM_append,
          lookupM_segBase_cr, lookupM_segBBox, lookupM_segRotation, lookupM_segBackground,
          lookupM_segFills, lookupM_segStrokes, lookupM_segCornerRadius_self,
          lookupM_segCornerRadii, lookupM_segEffects, lookupM_segLayout, lookupM_segText,
          lookupM_segInstance, lookupM_segConstraints, lookupM_segChildren,
          RawNode.props]
      · simp [extractNodeProperties_mk, getKey, hasKey, lookupM_append,
          lookupM_segBase_crr, lookupM_segBBox, lookupM_segRotation, lookupM_segBackground,
          lookupM_segFills, lookupM_segStrokes, lookupM_segCornerRadius,
          lookupM_segCornerRadii_self, lookupM_segEffects, lookupM_segLayout,
          lookupM_segText, lookupM_segInstance, lookupM_segConstraints,
          lookupM_segChildren, RawNode.props]
        cases hb : (p.topLeftRadius.isSome || p.topRightRadius.isSome ||
          p.bottomLeftRadius.isSome || p.bottomRightRadius.isSome) <;> simp_all
      · simp [extractNodeProperties_mk, getKey, lookupM_append,
          lookupM_segBase_crr, lookupM_segBBox, lookupM_segRotation, lookupM_segBackground,
          lookupM_segFills, lookupM_segStrokes, lookupM_segCornerRadius,
          lookupM_segCornerRadii_self, lookupM_segEffects, lookupM_segLayout,
          lookupM_segText, lookupM_segInstance, lookupM_segConstraints,
          lookupM_segChildren, RawNode.props]
  · exact ⟨by decide, by decide⟩

set_option maxRecDepth 100000 in
/-- C10 (confirmed): `strokes` is present iff the raw strokes array is
non-empty, and `strokeWeight` / `strokeAlign` are present only when the
strokes key is (a node with stroke weight or align but empty strokes gets
none of the three keys). -/
theorem strokeKeys_presence :
    (∀ n : RawNode,
      hasKey (extractNodeProperties n) "strokes" = decide (0 < n.props.strokes.length) ∧
      hasKey (extractNodeProperties n) "strokeWeight" =
        (decide (0 < n.props.strokes.length) && n.props.strokeWeight.isSome) ∧
      hasKey (extractNodeProperties n) "strokeAlign" =
        (decide (0 < n.props.strokes.length) && n.props.strokeAlign.isSome)) ∧
    (hasKey (extractNodeProperties nodeWeightNoStrokes) "strokes" = false ∧
     hasKey (extractNodeProperties nodeWeightNoStrokes) "strokeWeight" = false ∧
     hasKey (extractNodeProperties nodeWeightNoStrokes) "strokeAlign" = false ∧
     hasKey (extractNodeProperties nodeWithStrokes) "strokeWeight" = true) := by
  constructor
  · intro n
    cases n with
    | mk p cs =>
      refine ⟨?_, ?_, ?_⟩
      · simp [extractNodeProperties_mk, getKey, hasKey, lookupM_append,
          lookupM_segBase_st, lookupM_segBBox, lookupM_segRotation, lookupM_segBackground,
          lookupM_segFills, lookupM_segCornerRadius, lookupM_segCornerRadii,
          lookupM_segEffects, lookupM_segLayout, lookupM_segText, lookupM_segInstance,
          lookupM_segConstraints, lookupM_segChildren, lookupM_segStrokes_st,
          RawNode.props]
      · simp [extractNodeProperties_mk, getKey, hasKey, lookupM_append,
          lookupM_segBase_sw, lookupM_segBBox, lookupM_segRotation, lookupM_segBackground,
          lookupM_segFills, lookupM_segCornerRadius, lookupM_segCornerRadii,
          lookupM_segEffects, lookupM_segLayout, lookupM_segText, lookupM_segInstance,
          lookupM_segConstraints, lookupM_segChildren, lookupM_segStrokes_sw,
          RawNode.props]
      · simp [extractNodeProperties_mk, getKey, hasKey, lookupM_append,
          lookupM_segBase_sa, lookupM_segBBox, lookupM_segRotation, lookupM_segBackground,
          lookupM_segFills, lookupM_segCornerRadius, lookupM_segCornerRadii,
          lookupM_segEffects, lookupM_segLayout, lookupM_segText, lookupM_segInstance,
          lookupM_segConstraints, lookupM_segChildren, lookupM_segStrokes_sa,
          RawNode.props]
  · exact ⟨by decide, by decide, by decide, by decide⟩

theorem strAppend_left_cancel (s : String) {a b : String} (h : s ++ a = s ++ b) : a = b := by
  have hd := congrArg String.data h
  simp only [String.data_append] at hd
  exact String.ext (List.append_cancel_left hd)

theorem grayShadeOf_mem (br : ℚ) : grayShadeOf br ∈ grayShadeNames := by
  unfold grayShadeOf
  split_ifs <;> simp [grayShadeNames]

set_option maxHeartbeats 1000000 in
theorem gray_ladder_eq (pfx : String) (br : ℚ) :
    (if br < 30 then some (pfx ++ "-gray-950")
     else if br < 50 then some (pfx ++ "-gray-900")
     else if br < 80 then some (pfx ++ "-gray-800")
     else if br < 110 then some (pfx ++ "-gray-700")
     else if br < 135 then some (pfx ++ "-gray-600")
     else if br < 160 then some (pfx ++ "-gray-500")
     else if br < 185 then some (pfx ++ "-gray-400")
     else if br < 210 then some (pfx ++ "-gray-300")
     else if br < 230 then some (pfx ++ "-gray-200")
     else if br < 245 then some (pfx ++ "-gray-100")
     else some (pfx ++ "-gray-50")) = some (pfx ++ "-gray-" ++ grayShadeOf br) := by
  unfold grayShadeOf
  split_ifs <;>
    (rw [String.append_assoc]; exact congrArg (fun t => some (pfx ++ t)) (by decide))

set_option maxRecDepth 100000 in
unseal Rat.add Rat.mul Rat.inv Rat.sub in
/-- C7 counterexample: a color with rounded channels (100, 91, 109) — green
and blue differ by 18, so the claim's "all channels within 10" condition
fails — is still mapped through the gray brightness ladder. -/
theorem colorToTailwindClass_gray_cx :
    colorToTailwindClass (some colorRG9) "bg" = some "bg-gray-700" ∧
    jsRound (colorRG9.r * 255) = 100 ∧ jsRound (colorRG9.g * 255) = 91 ∧
    jsRound (colorRG9.b * 255) = 109 ∧
    ¬ allWithin10 100 91 109 ∧
    isGrayClass (some "bg-gray-700") "bg" := by
  refine ⟨by decide, by decide, by decide, by decide, ?_, ?_⟩
  · unfold allWithin10
    decide
  · exact ⟨"700", by decide, by decide⟩

set_option maxHeartbeats 1000000 in
/-- C7 (corrected): for non-black, non-white colors, the matcher applies the
grayscale ladder exactly when `|r−g| < 10` and `|r−b| < 10` (green and blue
are never compared with each other), and such a color is mapped through the
11-step brightness ladder. -/
theorem colorToTailwindClass_gray (c : FigmaColor) (pfx : String)
    (hb : ¬(jsRound (c.r * 255) = 0 ∧ jsRound (c.g * 255) = 0 ∧ jsRound (c.b * 255) = 0))
    (hw : ¬(jsRound (c.r * 255) = 255 ∧ jsRound (c.g * 255) = 255 ∧
      jsRound (c.b * 255) = 255)) :
    ((|jsRound (c.r * 255) - jsRound (c.g * 255)| < 10 ∧
      |jsRound (c.r * 255) - jsRound (c.b * 255)| < 10) →
      colorToTailwindClass (some c) pfx =
        some (pfx ++ "-gray-" ++ grayShadeOf
          (((jsRound (c.r * 255) : ℚ) + (jsRound (c.g * 255) : ℚ) +
            (jsRound (c.b * 255) : ℚ)) / 3))) ∧
    (isGrayClass (colorToTailwindClass (some c) pfx) pfx ↔
      (|jsRound (c.r * 255) - jsRound (c.g * 255)| < 10 ∧
       |jsRound (c.r * 255) - jsRound (c.b * 255)| < 10)) := by
  have hA : (|jsRound (c.r * 255) - jsRound (c.g * 255)| < 10 ∧
      |jsRound (c.r * 255) - jsRound (c.b * 255)| < 10) →
      colorToTailwindClass (some c) pfx =
        some (pfx ++ "-gray-" ++ grayShadeOf
          (((jsRound (c.r * 255) : ℚ) + (jsRound (c.g * 255) : ℚ) +
            (jsRound (c.b * 255) : ℚ)) / 3)) := by
    intro hg
    simp only [colorToTailwindClass]
    rw [if_neg hb, if_neg hw, if_pos hg]
    exact gray_ladder_eq pfx _
  have hnot : ¬(|jsRound (c.r * 255) - jsRound (c.g * 255)| < 10 ∧
      |jsRound (c.r * 255) - jsRound (c.b * 255)| < 10) →
      ¬ isGrayClass (colorToTailwindClass (some c) pfx) pfx := by
    intro hng
    simp only [colorToTailwindClass]
    rw [if_neg hb, if_neg hw, if_neg hng]
    split_ifs <;>
      first
        | (rintro ⟨nm, hnm, heq⟩; exact Option.noConfusion heq)
        | (rintro ⟨nm, hnm, heq⟩
           have heq2 := Option.some.inj heq
           simp only [String.append_assoc] at heq2
           have h3 := strAppend_left_cancel pfx heq2
           have h4 := congrArg (fun t => t.data.get? 1) h3
           simp [String.data_append] at h4)
  refine ⟨hA, ?_, ?_⟩
  · intro hgc
    by_contra hng
    exact hnot hng hgc
  · intro hg
    rw [hA hg]
    exact ⟨grayShadeOf _, grayShadeOf_mem _, rfl⟩

set_option maxRecDepth 100000 in
unseal Rat.add Rat.mul Rat.inv Rat.sub in
/-- C7 witness: the amended theorem at the uniform gray (120, 120, 120). -/
theorem colorToTailwindClass_gray_witness :
    colorToTailwindClass (some colorGray120) "bg" = some "bg-gray-600" :=
  ((colorToTailwindClass_gray colorGray120 "bg" (by decide) (by decide)).1
    (by decide)).trans (by decide)

/-! ### Round-trip lemmas: whitespace and character classes -/

/-- `skipWs` leaves a non-whitespace-headed list unchanged. -/
theorem skipWs_nonws (c : Char) (l : List Char) (h : isWsCh c = false) :
    skipWs (c :: l) = c :: l := by
  simp [skipWs, h]

/-- `skipWs` drops a leading newline. -/
theorem skipWs_nl (l : List Char) : skipWs ('\n' :: l) = skipWs l := by
  simp [skipWs, isWsCh]

/-- `skipWs` drops leading indentation. -/
theorem skipWs_pad (n : Nat) (l : List Char) : skipWs (wsPad n ++ l) = skipWs l := by
  induction n with
  | zero => rfl
  | succ n ih =>
    show skipWs (' ' :: (List.replicate n ' ' ++ l)) = skipWs l
    simp only [skipWs, isWsCh]
    norm_num
    exact ih

/-- Facts about decimal digit characters needed by the parser proofs. -/
theorem digit_char_facts : ∀ d : Nat, d < 10 →
    isDigitCh (digitCh d) = true ∧ isWsCh (digitCh d) = false ∧
    digitCh d ≠ lbrace ∧ digitCh d ≠ '[' ∧ digitCh d ≠ '"' ∧
    digitCh d ≠ 'n' ∧ digitCh d ≠ 't' ∧ digitCh d ≠ 'f' ∧
    digitCh d ≠ '-' ∧ digitCh d ≠ '.' ∧ digitCh d ≠ ']' ∧
    digitCh d ≠ rbrace ∧ digitCh d ≠ ',' := by decide

/-- The digit character encodes its value. -/
theorem digitVal_digitCh : ∀ d : Nat, d < 10 → digitVal (digitCh d) = d := by decide

/-- Hexadecimal digit characters are hex digits and encode their value. -/
theorem hexCh_facts : ∀ d : Nat, d < 16 →
    isHexCh (hexCh d) = true ∧ hexVal (hexCh d) = d := by decide

/-- Facts about the minus sign needed by the parser proofs. -/
theorem minus_char_facts : isWsCh '-' = false ∧ isDigitCh '-' = false ∧
    '-' ≠ lbrace ∧ '-' ≠ '[' ∧ '-' ≠ '"' ∧ '-' ≠ 'n' ∧ '-' ≠ 't' ∧ '-' ≠ 'f' := by decide

/-! ### Round-trip lemmas: decimal digit runs -/

/-- Every character `natDigitsF` emits is a digit. -/
theorem natDigitsF_digits : ∀ f n, ∀ c ∈ natDigitsF f n, isDigitCh c = true := by
  intro f
  induction f with
  | zero => intro n c hc; simp [natDigitsF] at hc
  | succ f ih =>
    intro n c hc
    simp only [natDigitsF] at hc
    by_cases h : n < 10
    · rw [if_pos h] at hc
      simp at hc
      subst hc
      exact (digit_char_facts n h).1
    · rw [if_neg h] at hc
      rcases List.mem_append.mp hc with h1 | h2
      · exact ih _ _ h1
      · simp at h2
        subst h2
        exact (digit_char_facts _ (Nat.mod_lt _ (by omega))).1

/-- `natDigitsF` with positive fuel starts with a digit character. -/
theorem natDigitsF_head : ∀ f n, 0 < f →
    ∃ d tl, natDigitsF f n = digitCh d :: tl ∧ d < 10 := by
  intro f
  induction f with
  | zero => intro n h; omega
  | succ f ih =>
    intro n _
    simp only [natDigitsF]
    by_cases h : n < 10
    · rw [if_pos h]; exact ⟨n, [], rfl, h⟩
    · rw [if_neg h]
      cases f with
      | zero =>
        exact ⟨n % 10, [], by simp [natDigitsF], Nat.mod_lt _ (by omega)⟩
      | succ f2 =>
        obtain ⟨d, tl, heq, hd⟩ := ih (n / 10) (by omega)
        exact ⟨d, tl ++ [digitCh (n % 10)], by rw [heq]; rfl, hd⟩

/-- Appending one digit multiplies the accumulated value by ten. -/
theorem digitsToNat_append_one (a : List Char) (c : Char) :
    digitsToNat (a ++ [c]) = 10 * digitsToNat a + digitVal c := by
  simp [digitsToNat, List.foldl_append]
  omega

/-- `digitsToNat` inverts `natDigitsF` when the fuel covers the value. -/
theorem digitsToNat_natDigitsF : ∀ f n, n < f → digitsToNat (natDigitsF f n) = n := by
  intro f
  induction f with
  | zero => intro n h; omega
  | succ f ih =>
    intro n hn
    simp only [natDigitsF]
    by_cases h : n < 10
    · rw [if_pos h]
      have hv := digitVal_digitCh n h
      simp [digitsToNat]
      omega
    · rw [if_neg h, digitsToNat_append_one]
      have h10 : n / 10 < f := by
        have := Nat.div_lt_self (by omega : 0 < n) (by omega : (1:Nat) < 10)
        omega
      rw [ih _ h10, digitVal_digitCh _ (Nat.mod_lt _ (by omega))]
      omega

/-- `fixedDigits` always emits digit characters. -/
theorem fixedDigits_digits : ∀ k n, ∀ c ∈ fixedDigits k n, isDigitCh c = true := by
  intro k
  induction k with
  | zero => intro n c hc; simp [fixedDigits] at hc
  | succ k ih =>
    intro n c hc
    simp only [fixedDigits] at hc
    rcases List.mem_append.mp hc with h1 | h2
    · exact ih _ _ h1
    · simp at h2
      subst h2
      exact (digit_char_facts _ (Nat.mod_lt _ (by omega))).1

/-- `fixedDigits k` emits exactly `k` characters. -/
theorem fixedDigits_length : ∀ k n, (fixedDigits k n).length = k := by
  intro k
  induction k with
  | zero => intro n; rfl
  | succ k ih => intro n; simp [fixedDigits, ih]

/-- `digitsToNat` reads back `fixedDigits` modulo `10 ^ k`. -/
theorem digitsToNat_fixedDigits : ∀ k n, digitsToNat (fixedDigits k n) = n % 10 ^ k := by
  intro k
  induction k with
  | zero => intro n; simp [fixedDigits, digitsToNat, Nat.mod_one]
  | succ k ih =>
    intro n
    rw [fixedDigits, digitsToNat_append_one, ih, digitVal_digitCh _ (Nat.mod_lt _ (by omega))]
    have hpow : (10 : Nat) ^ (k + 1) = 10 * 10 ^ k := by ring
    rw [hpow, Nat.mod_mul]
    ring

/-- `takeDigits` splits a digit run off exactly at the first non-digit. -/
theorem takeDigits_split : ∀ ds rest : List Char, (∀ c ∈ ds, isDigitCh c = true) →
    (match rest with | [] => True | c :: _ => isDigitCh c = false) →
    takeDigits (ds ++ rest) = (ds, rest) := by
  intro ds
  induction ds with
  | nil =>
    intro rest _ hr
    cases rest with
    | nil => rfl
    | cons c tl => simp [takeDigits, hr]
  | cons c ds ih =>
    intro rest hds hr
    have hc : isDigitCh c = true := hds c (by simp)
    simp [List.cons_append, takeDigits, hc,
      ih rest (fun x hx => hds x (List.mem_cons_of_mem _ hx)) hr]

/-! ### Round-trip lemmas: numbers -/

/-- A `restOk` continuation does not begin with a digit. -/
theorem restOk_digitFree (rest : List Char) :
    restOk rest → (match rest with | [] => True | c :: _ => isDigitCh c = false) := by
  cases rest with
  | nil => intro _; trivial
  | cons c tl => intro h; exact h.1

/-- A `restOk` continuation does not begin with a decimal point. -/
theorem restOk_dotFree (rest : List Char) :
    restOk rest → (match rest with | [] => True | c :: _ => c ≠ '.') := by
  cases rest with
  | nil => intro _; trivial
  | cons c tl => intro h; exact h.2

/-- `parsePosNum` reads back a rendered integer. -/
theorem parsePosNum_int (a : Nat) (rest : List Char) (hrest : restOk rest) :
    parsePosNum (natToChars a ++ rest) = some ((a : ℚ), rest) := by
  obtain ⟨d0, t0, hshape, hd0⟩ := natDigitsF_head (a + 1) a (Nat.succ_pos a)
  have hsplit := takeDigits_split (natToChars a) rest (natDigitsF_digits _ _)
    (restOk_digitFree rest hrest)
  have hval := digitsToNat_natDigitsF (a + 1) a (Nat.lt_succ_self a)
  have hne : (natToChars a).isEmpty = false := by
    rw [natToChars, hshape]; rfl
  have hval2 : digitsToNat (natToChars a) = a := hval
  cases rest with
  | nil =>
    rw [List.append_nil] at hsplit
    simp [parsePosNum, hsplit, hne, hval2]
  | cons c tl =>
    have hc : c ≠ '.' := hrest.2
    simp [parsePosNum, hsplit, hne, hval2, hc]

/-- `parsePosNum` reads back a rendered integer-dot-fraction form. -/
theorem parsePosNum_frac (a k r : Nat) (hk : k ≠ 0) (rest : List Char)
    (hrest : restOk rest) :
    parsePosNum (natToChars a ++ ('.' :: (fixedDigits k r ++ rest))) =
      some ((a : ℚ) + ((r % 10 ^ k : ℕ) : ℚ) / (10 : ℚ) ^ k, rest) := by
  obtain ⟨d0, t0, hshape, hd0⟩ := natDigitsF_head (a + 1) a (Nat.succ_pos a)
  have hdotok : (match ('.' :: (fixedDigits k r ++ rest) : List Char) with
      | [] => True | c :: _ => isDigitCh c = false) := by
    show isDigitCh '.' = false
    decide
  have hsplit1 := takeDigits_split (natToChars a) ('.' :: (fixedDigits k r ++ rest))
    (natDigitsF_digits _ _) hdotok
  have hsplit2 := takeDigits_split (fixedDigits k r) rest (fixedDigits_digits _ _)
    (restOk_digitFree rest hrest)
  have hval := digitsToNat_natDigitsF (a + 1) a (Nat.lt_succ_self a)
  have hne : (natToChars a).isEmpty = false := by
    rw [natToChars, hshape]; rfl
  have hlen := fixedDigits_length k r
  have hfne : (fixedDigits k r).isEmpty = false := by
    cases hfd : fixedDigits k r with
    | nil => rw [hfd] at hlen; simp at hlen; exact absurd hlen.symm hk
    | cons x xs => rfl
  have hfval := digitsToNat_fixedDigits k r
  have hval2 : digitsToNat (natToChars a) = a := hval
  simp [parsePosNum, hsplit1, hsplit2, hne, hfne, hval2, hfval, hlen]

/-- The rendering of a nonnegative rational starts with a digit character. -/
theorem qPosToString_head (p : ℚ) (hdec : p.den ∣ 10 ^ decExp p.den) :
    ∃ d tl, (qPosToString p).data = digitCh d :: tl ∧ d < 10 := by
  simp only [qPosToString]
  rw [if_pos hdec]
  by_cases hk : decExp p.den = 0
  · rw [if_pos hk]
    obtain ⟨d, tl, heq, hd⟩ := natDigitsF_head
      (p.num.toNat * (10 ^ decExp p.den / p.den) + 1) (p.num.toNat * (10 ^ decExp p.den / p.den))
      (Nat.succ_pos _)
    exact ⟨d, tl, heq, hd⟩
  · rw [if_neg hk]
    obtain ⟨d, tl, heq, hd⟩ := natDigitsF_head
      (p.num.toNat * (10 ^ decExp p.den / p.den) / 10 ^ decExp p.den + 1)
      (p.num.toNat * (10 ^ decExp p.den / p.den) / 10 ^ decExp p.den) (Nat.succ_pos _)
    refine ⟨d, tl ++ ('.' :: fixedDigits (decExp p.den)
      (p.num.toNat * (10 ^ decExp p.den / p.den) % 10 ^ decExp p.den)), ?_, hd⟩
    simp [natToStr, natToChars, String.data_append, heq]

/-- `parsePosNum` inverts `qPosToString` on decimal-terminating nonnegative
rationals. -/
theorem parsePosNum_qPos (p : ℚ) (hp : 0 ≤ p) (hdec : p.den ∣ 10 ^ decExp p.den)
    (rest : List Char) (hrest : restOk rest) :
    parsePosNum ((qPosToString p).data ++ rest) = some (p, rest) := by
  have hden0 : ((p.den : ℚ)) ≠ 0 := by
    exact_mod_cast p.den_nz
  have hnn : 0 ≤ p.num := Rat.num_nonneg.mpr hp
  by_cases hk : decExp p.den = 0
  · have hden1 : p.den = 1 := Nat.dvd_one.mp (by rw [hk, pow_zero] at hdec; exact hdec)
    have hqs : qPosToString p =
        natToStr (p.num.toNat * (10 ^ decExp p.den / p.den)) := by
      simp only [qPosToString]
      rw [if_pos hdec, if_pos hk]
    rw [hqs]
    show parsePosNum (natToChars (p.num.toNat * (10 ^ decExp p.den / p.den)) ++ rest) =
      some (p, rest)
    have hpn := parsePosNum_int (p.num.toNat * (10 ^ decExp p.den / p.den)) rest hrest
    rw [hpn]
    have hcast : ((p.num.toNat * (10 ^ decExp p.den / p.den) : ℕ) : ℚ) = p := by
      have h1 : ((p.num.toNat : ℕ) : ℚ) = (p.num : ℚ) := by
        exact_mod_cast congrArg (fun z : ℤ => (z : ℚ)) (Int.toNat_of_nonneg hnn)
      have h2 := Rat.num_div_den p
      rw [hden1] at h2
      rw [hk, hden1]
      simp only [pow_zero, Nat.div_one, mul_one]
      rw [h1]
      simpa using h2
    rw [hcast]
  · have hqs : qPosToString p =
        natToStr (p.num.toNat * (10 ^ decExp p.den / p.den) / 10 ^ decExp p.den) ++ "." ++
          String.mk (fixedDigits (decExp p.den)
            (p.num.toNat * (10 ^ decExp p.den / p.den) % 10 ^ decExp p.den)) := by
      simp only [qPosToString]
      rw [if_pos hdec, if_neg hk]
    rw [hqs]
    set k := decExp p.den with hkdef
    set m := p.num.toNat * (10 ^ k / p.den) with hmdef
    have hdata : (natToStr (m / 10 ^ k) ++ "." ++ String.mk (fixedDigits k (m % 10 ^ k))).data
        ++ rest = natToChars (m / 10 ^ k) ++ ('.' :: (fixedDigits k (m % 10 ^ k) ++ rest)) := by
      simp [natToStr, String.data_append, List.append_assoc]
    rw [hdata]
    rw [parsePosNum_frac (m / 10 ^ k) k (m % 10 ^ k) hk rest hrest]
    have hmq : (m : ℚ) = p * 10 ^ k := by
      have h1 : ((p.num.toNat : ℕ) : ℚ) = (p.num : ℚ) := by
        exact_mod_cast congrArg (fun z : ℤ => (z : ℚ)) (Int.toNat_of_nonneg hnn)
      have h2 : ((10 ^ k / p.den : ℕ) : ℚ) = ((10 : ℚ) ^ k) / (p.den : ℚ) := by
        rw [Nat.cast_div hdec hden0]
        push_cast
        ring
      calc (m : ℚ) = ((p.num.toNat : ℕ) : ℚ) * ((10 ^ k / p.den : ℕ) : ℚ) := by
            rw [hmdef]; push_cast; ring
        _ = (p.num : ℚ) * (((10 : ℚ) ^ k) / (p.den : ℚ)) := by rw [h1, h2]
        _ = ((p.num : ℚ) / (p.den : ℚ)) * (10 : ℚ) ^ k := by ring
        _ = p * 10 ^ k := by rw [Rat.num_div_den]
    have hdm : ((m / 10 ^ k : ℕ) : ℚ) * (10 : ℚ) ^ k + ((m % 10 ^ k : ℕ) : ℚ) = (m : ℚ) := by
      have hh : m / 10 ^ k * 10 ^ k + m % 10 ^ k = m := by
        rw [mul_comm]
        exact Nat.div_add_mod m (10 ^ k)
      exact_mod_cast congrArg (fun n : ℕ => (n : ℚ)) hh
    have h10 : ((10 : ℚ) ^ k) ≠ 0 := by positivity
    congr 1
    rw [Nat.mod_mod_of_dvd m (dvd_refl (10 ^ k))]
    refine Prod.ext ?_ rfl
    show ((m / 10 ^ k : ℕ) : ℚ) + ((m % 10 ^ k : ℕ) : ℚ) / (10 : ℚ) ^ k = p
    field_simp
    linarith [hdm, hmq]

/-- `parseNumAt` inverts the JS number rendering on decimal-terminating
rationals, stopping exactly at the value boundary. -/
theorem parseNumAt_render (q : ℚ) (hdec : decOkQ q = true) (rest : List Char)
    (hrest : restOk rest) :
    parseNumAt ((jsNumToString q).data ++ rest) = some (q, rest) := by
  have hdvd : q.den ∣ 10 ^ decExp q.den := by
    have h := hdec
    simp [decOkQ] at h
    exact h
  by_cases hq : q < 0
  · rw [jsNumToString, if_pos hq]
    have hdata : ("-" ++ qPosToString (-q)).data ++ rest
        = '-' :: ((qPosToString (-q)).data ++ rest) := by
      simp [String.data_append]
    rw [hdata]
    have hdvd' : (-q).den ∣ 10 ^ decExp (-q).den := by
      rw [Rat.neg_den]
      exact hdvd
    have hpos := parsePosNum_qPos (-q) (by linarith) hdvd' rest hrest
    simp [parseNumAt, hpos]
  · rw [jsNumToString, if_neg hq]
    obtain ⟨d, tl, hdt, hd10⟩ := qPosToString_head q hdvd
    have hstep : (qPosToString q).data ++ rest = digitCh d :: (tl ++ rest) := by
      rw [hdt]; rfl
    rw [hstep]
    have hfacts := digit_char_facts d hd10
    rw [parseNumAt, if_neg hfacts.2.2.2.2.2.2.2.2.1]
    rw [← hstep]
    exact parsePosNum_qPos q (not_lt.mp hq) hdvd rest hrest

/-! ### Round-trip lemmas: strings -/

/-- `parseStrBody` undoes `escList`, consuming the closing quote. -/
theorem parseStrBody_esc : ∀ cs rest : List Char,
    parseStrBody (escList cs ++ '"' :: rest) = some (cs, rest) := by
  intro cs
  induction cs with
  | nil =>
    intro rest
    show parseStrBody ('"' :: rest) = some ([], rest)
    rw [parseStrBody.eq_def]
    simp +decide
  | cons c tl ih =>
    intro rest
    rw [escList, List.append_assoc]
    have hR := ih rest
    unfold escChar
    split_ifs with h1 h2 h3 h4 h5 h6 h7 h8
    · subst h1
      rw [parseStrBody.eq_def]
      simp +decide [hR]
    · subst h2
      rw [parseStrBody.eq_def]
      simp +decide [hR]
    · subst h3
      rw [parseStrBody.eq_def]
      simp +decide [hR]
    · subst h4
      rw [parseStrBody.eq_def]
      simp +decide [hR]
    · subst h5
      rw [parseStrBody.eq_def]
      simp +decide [hR]
    · subst h6
      rw [parseStrBody.eq_def]
      simp +decide [hR]
    · subst h7
      rw [parseStrBody.eq_def]
      simp +decide [hR]
    · -- control character: rendered as a \u00XX escape
      have h32 : c.toNat < 32 := h8
      have hhi : c.toNat / 16 < 16 := by omega
      have hlo : c.toNat % 16 < 16 := Nat.mod_lt _ (by omega)
      have hfhi := hexCh_facts (c.toNat / 16) hhi
      have hflo := hexCh_facts (c.toNat % 16) hlo
      have h0 : hexVal '0' = 0 := by decide
      have hcode : hexVal '0' * 4096 + hexVal '0' * 256 +
          hexVal (hexCh (c.toNat / 16)) * 16 + hexVal (hexCh (c.toNat % 16)) = c.toNat := by
        rw [hfhi.2, hflo.2, h0]
        omega
      rw [parseStrBody.eq_def]
      simp +decide [hfhi.1, hflo.1, hcode, Char.ofNat_toNat, hR]
    · -- ordinary character
      rw [parseStrBody.eq_def]
      simp [h1, h2, h8, hR]

/-! ### Round-trip lemmas: parser step equations -/

/-- `skipWs` drops a leading space. -/
theorem skipWs_sp (l : List Char) : skipWs (' ' :: l) = skipWs l := by
  simp [skipWs, isWsCh]

/-- One `parseV` step is its core applied to the stripped input. -/
theorem parseV_succ (f : Nat) (i : List Char) :
    parseV (f + 1) i = parseVCore f (skipWs i) := rfl

/-- One `parseArrBody` step is its core applied to the stripped input. -/
theorem parseArrBody_succ (f : Nat) (i : List Char) :
    parseArrBody (f + 1) i = parseArrBodyCore f i (skipWs i) := rfl

/-- One `parseArrRest` step is its core applied to the stripped input. -/
theorem parseArrRest_succ (f : Nat) (i : List Char) :
    parseArrRest (f + 1) i = parseArrRestCore f (skipWs i) := rfl

/-- One `parseObjBody` step is its core applied to the stripped input. -/
theorem parseObjBody_succ (f : Nat) (i : List Char) :
    parseObjBody (f + 1) i = parseObjBodyCore f (skipWs i) := rfl

/-- One `parseObjRest` step is its core applied to the stripped input. -/
theorem parseObjRest_succ (f : Nat) (i : List Char) :
    parseObjRest (f + 1) i = parseObjRestCore f (skipWs i) := rfl

/-- `parseV` only looks at its input through `skipWs`. -/
theorem parseV_congr (f : Nat) (i j : List Char) (h : skipWs i = skipWs j) :
    parseV f i = parseV f j := by
  cases f with
  | zero => rfl
  | succ f => rw [parseV_succ, parseV_succ, h]

/-- The JS rendering of a decimal-terminating number starts with a character
that is not whitespace and not a JSON closing delimiter. -/
theorem jsNumToString_head (q : ℚ) (hdec : q.den ∣ 10 ^ decExp q.den) :
    ∃ c tl, (jsNumToString q).data = c :: tl ∧ isWsCh c = false ∧
      c ≠ lbrace ∧ c ≠ '[' ∧ c ≠ '"' ∧ c ≠ 'n' ∧ c ≠ 't' ∧ c ≠ 'f' ∧
      c ≠ ']' ∧ c ≠ rbrace ∧ c ≠ ',' := by
  rw [jsNumToString]
  by_cases hq : q < 0
  · rw [if_pos hq]
    refine ⟨'-', (qPosToString (-q)).data, ?_, by decide, by decide, by decide, by decide,
      by decide, by decide, by decide, by decide, by decide, by decide⟩
    simp [String.data_append]
  · rw [if_neg hq]
    obtain ⟨d, tl, hdt, hd⟩ := qPosToString_head q hdec
    obtain ⟨hdig, hws, hlb, hbk, hqu, hn, ht, hf, hm, hdot, hcb, hrb, hcm⟩ :=
      digit_char_facts d hd
    exact ⟨digitCh d, tl, hdt, hws, hlb, hbk, hqu, hn, ht, hf, hcb, hrb, hcm⟩

/-- A rendered value starts with a character that is not whitespace and not a
closing delimiter or comma. -/
theorem renderV_head (ind : Nat) (v : JSVal) (hnum : numsOkV v = true) :
    ∃ c tl, renderV ind v = c :: tl ∧ isWsCh c = false ∧
      c ≠ ']' ∧ c ≠ rbrace ∧ c ≠ ',' := by
  cases v with
  | undef =>
    exact ⟨'n', ['u', 'l', 'l'], rfl, by decide, by decide, by decide, by decide⟩
  | null =>
    exact ⟨'n', ['u', 'l', 'l'], rfl, by decide, by decide, by decide, by decide⟩
  | bool b =>
    cases b with
    | true =>
      exact ⟨'t', ['r', 'u', 'e'], rfl, by decide, by decide, by decide, by decide⟩
    | false =>
      exact ⟨'f', ['a', 'l', 's', 'e'], rfl, by decide, by decide, by decide, by decide⟩
  | num q =>
    have hdec : q.den ∣ 10 ^ decExp q.den := by
      have h : decOkQ q = true := hnum
      simp [decOkQ] at h
      exact h
    obtain ⟨c, tl, hdt, hws, _, _, _, _, _, _, hcb, hrb, hcm⟩ := jsNumToString_head q hdec
    exact ⟨c, tl, hdt, hws, hcb, hrb, hcm⟩
  | str s =>
    exact ⟨'"', escList s.data ++ ['"'], rfl, by decide, by decide, by decide, by decide⟩
  | arr xs =>
    exact ⟨'[', renderArrInner ind xs, rfl, by decide, by decide, by decide, by decide⟩
  | obj ms =>
    exact ⟨lbrace, renderObjInner ind ms, rfl, by decide, by decide, by decide, by decide⟩

/-- The tail of a rendered array is a valid continuation for value parsing. -/
theorem restOk_arrTail (ind : Nat) (xs : List JSVal) (rest : List Char) :
    restOk (renderArrTail ind xs ++ rest) := by
  cases xs with
  | nil => exact ⟨by decide, by decide⟩
  | cons x xs => exact ⟨by decide, by decide⟩

/-- The tail of a rendered object is a valid continuation for value parsing. -/
theorem restOk_objTail (ind : Nat) (ms : List (String × JSVal)) (rest : List Char) :
    restOk (renderObjTail ind ms ++ rest) := by
  cases ms with
  | nil => exact ⟨by decide, by decide⟩
  | cons m tl =>
    obtain ⟨k, v⟩ := m
    cases v with
    | undef =>
      show restOk (renderObjTail ind tl ++ rest)
      exact restOk_objTail ind tl rest
    | null => exact ⟨by decide, by decide⟩
    | bool b => exact ⟨by decide, by decide⟩
    | num q => exact ⟨by decide, by decide⟩
    | str s => exact ⟨by decide, by decide⟩
    | arr xs => exact ⟨by decide, by decide⟩
    | obj ms2 => exact ⟨by decide, by decide⟩

/-- `parseMemberAt` reads back one rendered `"key": value` member. -/
theorem parseMemberAt_render (f : Nat) (k : String) (v : JSVal) (ind : Nat) (T : List Char)
    (hpv : parseV f (renderV ind v ++ T) = some (stripV v, T)) :
    parseMemberAt (f + 1) (renderString k ++ (':' :: ' ' :: (renderV ind v ++ T))) =
      some (k, stripV v, T) := by
  have hI : renderString k ++ (':' :: ' ' :: (renderV ind v ++ T)) =
      '"' :: (escList k.data ++ ('"' :: (':' :: ' ' :: (renderV ind v ++ T)))) := by
    simp [renderString, List.append_assoc]
  rw [hI]
  show (parseStrBody (escList k.data ++ ('"' :: (':' :: ' ' :: (renderV ind v ++ T))))).bind
      (fun kr =>
        match skipWs kr.2 with
        | [] => none
        | c2 :: r2 =>
          if c2 = ':' then
            (parseV f r2).map (fun vr => (String.mk kr.1, vr.1, vr.2))
          else none) = some (k, stripV v, T)
  rw [parseStrBody_esc]
  show (match skipWs (':' :: ' ' :: (renderV ind v ++ T)) with
    | [] => none
    | c2 :: r2 =>
      if c2 = ':' then
        (parseV f r2).map (fun vr => (String.mk k.data, vr.1, vr.2))
      else none) = some (k, stripV v, T)
  rw [skipWs_nonws ':' _ (by decide)]
  show (parseV f (' ' :: (renderV ind v ++ T))).map
      (fun vr => (String.mk k.data, vr.1, vr.2)) = some (k, stripV v, T)
  rw [parseV_congr f (' ' :: (renderV ind v ++ T)) (renderV ind v ++ T) (skipWs_sp _), hpv]
  rfl

/-- Rendering of an object body whose first member is kept. -/
theorem renderObjInner_cons_ne (ind : Nat) (k : String) (v : JSVal)
    (tl : List (String × JSVal)) (hv : v ≠ JSVal.undef) :
    renderObjInner ind ((k, v) :: tl) = '\n' :: (wsPad (ind + 2) ++ renderString k ++
      ':' :: ' ' :: (renderV (ind + 2) v ++ renderObjTail ind tl)) := by
  cases v
  · exact absurd rfl hv
  all_goals rfl

/-- Rendering of an object tail whose first member is kept. -/
theorem renderObjTail_cons_ne (ind : Nat) (k : String) (v : JSVal)
    (tl : List (String × JSVal)) (hv : v ≠ JSVal.undef) :
    renderObjTail ind ((k, v) :: tl) = ',' :: '\n' :: (wsPad (ind + 2) ++ renderString k ++
      ':' :: ' ' :: (renderV (ind + 2) v ++ renderObjTail ind tl)) := by
  cases v
  · exact absurd rfl hv
  all_goals rfl

/-- Strip of an object list whose first member is kept. -/
theorem stripM_cons_ne (k : String) (v : JSVal) (tl : List (String × JSVal))
    (hv : v ≠ JSVal.undef) :
    stripM ((k, v) :: tl) = (k, stripV v) :: stripM tl := by
  cases v
  · exact absurd rfl hv
  all_goals rfl

/-- Cost of an object body whose first member is kept. -/
theorem costObjB_cons_ne (k : String) (v : JSVal) (tl : List (String × JSVal))
    (hv : v ≠ JSVal.undef) :
    costObjB ((k, v) :: tl) = 2 + costV v + costObjRest tl := by
  cases v
  · exact absurd rfl hv
  all_goals rfl

/-- Cost of an object tail whose first member is kept. -/
theorem costObjRest_cons_ne (k : String) (v : JSVal) (tl : List (String × JSVal))
    (hv : v ≠ JSVal.undef) :
    costObjRest ((k, v) :: tl) = 2 + costV v + costObjRest tl := by
  cases v
  · exact absurd rfl hv
  all_goals rfl

/-- `parseObjBody` consumes one kept rendered member and the remaining tail. -/
theorem parseObjBody_kept (f : Nat) (k : String) (v : JSVal)
    (tl : List (String × JSVal)) (ind : Nat) (rest : List Char)
    (hrender : renderObjInner ind ((k, v) :: tl) =
      '\n' :: (wsPad (ind + 2) ++ renderString k ++ ':' :: ' ' ::
        (renderV (ind + 2) v ++ renderObjTail ind tl)))
    (hstrip : stripM ((k, v) :: tl) = (k, stripV v) :: stripM tl)
    (hpv : parseV f (renderV (ind + 2) v ++ (renderObjTail ind tl ++ rest)) =
      some (stripV v, renderObjTail ind tl ++ rest))
    (hor : parseObjRest (f + 1) (renderObjTail ind tl ++ rest) = some (stripM tl, rest)) :
    parseObjBody (f + 2) (renderObjInner ind ((k, v) :: tl) ++ rest) =
      some (JSVal.obj (stripM ((k, v) :: tl)), rest) := by
  have hI : renderObjInner ind ((k, v) :: tl) ++ rest =
      '\n' :: (wsPad (ind + 2) ++ (renderString k ++ (':' :: ' ' ::
        (renderV (ind + 2) v ++ (renderObjTail ind tl ++ rest))))) := by
    rw [hrender]
    simp [List.append_assoc]
  rw [hI, parseObjBody_succ]
  have hq : skipWs ('\n' :: (wsPad (ind + 2) ++ (renderString k ++ (':' :: ' ' ::
      (renderV (ind + 2) v ++ (renderObjTail ind tl ++ rest)))))) =
      renderString k ++ (':' :: ' ' :: (renderV (ind + 2) v ++ (renderObjTail ind tl ++ rest))) := by
    rw [skipWs_nl, skipWs_pad]
    exact skipWs_nonws '"' _ (by decide)
  rw [hq]
  show (parseMemberAt (f + 1) (renderString k ++ (':' :: ' ' ::
      (renderV (ind + 2) v ++ (renderObjTail ind tl ++ rest))))).bind
      (fun kvr => (parseObjRest (f + 1) kvr.2.2).map
        (fun ms2 => (JSVal.obj ((kvr.1, kvr.2.1) :: ms2.1), ms2.2))) =
      some (JSVal.obj (stripM ((k, v) :: tl)), rest)
  rw [parseMemberAt_render f k v (ind + 2) (renderObjTail ind tl ++ rest) hpv]
  show (parseObjRest (f + 1) (renderObjTail ind tl ++ rest)).map
      (fun ms2 => (JSVal.obj ((k, stripV v) :: ms2.1), ms2.2)) =
      some (JSVal.obj (stripM ((k, v) :: tl)), rest)
  rw [hor, hstrip]
  rfl

/-- `parseObjRest` consumes one kept rendered member and the remaining tail. -/
theorem parseObjRest_kept (f : Nat) (k : String) (v : JSVal)
    (tl : List (String × JSVal)) (ind : Nat) (rest : List Char)
    (hrender : renderObjTail ind ((k, v) :: tl) =
      ',' :: '\n' :: (wsPad (ind + 2) ++ renderString k ++ ':' :: ' ' ::
        (renderV (ind + 2) v ++ renderObjTail ind tl)))
    (hstrip : stripM ((k, v) :: tl) = (k, stripV v) :: stripM tl)
    (hpv : parseV f (renderV (ind + 2) v ++ (renderObjTail ind tl ++ rest)) =
      some (stripV v, renderObjTail ind tl ++ rest))
    (hor : parseObjRest (f + 1) (renderObjTail ind tl ++ rest) = some (stripM tl, rest)) :
    parseObjRest (f + 2) (renderObjTail ind ((k, v) :: tl) ++ rest) =
      some (stripM ((k, v) :: tl), rest) := by
  have hI : renderObjTail ind ((k, v) :: tl) ++ rest =
      ',' :: ('\n' :: (wsPad (ind + 2) ++ (renderString k ++ (':' :: ' ' ::
        (renderV (ind + 2) v ++ (renderObjTail ind tl ++ rest)))))) := by
    rw [hrender]
    simp [List.append_assoc]
  rw [hI, parseObjRest_succ, skipWs_nonws ',' _ (by decide)]
  show (parseMemberAt (f + 1) (skipWs ('\n' :: (wsPad (ind + 2) ++ (renderString k ++
      (':' :: ' ' :: (renderV (ind + 2) v ++ (renderObjTail ind tl ++ rest)))))))).bind
      (fun kvr => (parseObjRest (f + 1) kvr.2.2).map
        (fun ms2 => ((kvr.1, kvr.2.1) :: ms2.1, ms2.2))) =
      some (stripM ((k, v) :: tl), rest)
  have hq : skipWs ('\n' :: (wsPad (ind + 2) ++ (renderString k ++ (':' :: ' ' ::
      (renderV (ind + 2) v ++ (renderObjTail ind tl ++ rest)))))) =
      renderString k ++ (':' :: ' ' :: (renderV (ind + 2) v ++ (renderObjTail ind tl ++ rest))) := by
    rw [skipWs_nl, skipWs_pad]
    exact skipWs_nonws '"' _ (by decide)
  rw [hq, parseMemberAt_render f k v (ind + 2) (renderObjTail ind tl ++ rest) hpv]
  show (parseObjRest (f + 1) (renderObjTail ind tl ++ rest)).map
      (fun ms2 => ((k, stripV v) :: ms2.1, ms2.2)) =
      some (stripM ((k, v) :: tl), rest)
  rw [hor, hstrip]
  rfl

/-- Split a conjunction of booleans. -/
theorem band_split {a b : Bool} (h : (a && b) = true) : a = true ∧ b = true := by
  simp at h
  exact h

/-- The parser inverts the renderer: rendered values (with their rendered
array bodies, array tails, object bodies and object tails) parse back to
their stripped forms, leaving exactly the continuation, whenever the fuel
covers the parse cost. -/
theorem parse_render_all : ∀ f : Nat,
    (∀ v ind rest, numsOkV v = true → costV v ≤ f → restOk rest →
      parseV f (renderV ind v ++ rest) = some (stripV v, rest)) ∧
    (∀ xs ind rest, numsOkL xs = true → costArrB xs ≤ f → restOk rest →
      parseArrBody f (renderArrInner ind xs ++ rest) = some (JSVal.arr (stripL xs), rest)) ∧
    (∀ xs ind rest, numsOkL xs = true → costArrRest xs ≤ f → restOk rest →
      parseArrRest f (renderArrTail ind xs ++ rest) = some (stripL xs, rest)) ∧
    (∀ ms ind rest, numsOkM ms = true → costObjB ms ≤ f → restOk rest →
      parseObjBody f (renderObjInner ind ms ++ rest) = some (JSVal.obj (stripM ms), rest)) ∧
    (∀ ms ind rest, numsOkM ms = true → costObjRest ms ≤ f → restOk rest →
      parseObjRest f (renderObjTail ind ms ++ rest) = some (stripM ms, rest)) := by
  intro f
  induction f using Nat.strong_induction_on with
  | _ f IH =>
  refine ⟨?_, ?_, ?_, ?_, ?_⟩
  · -- parseV
    intro v ind rest hnum hcost hrest
    cases v with
    | undef =>
      have h1 : 1 ≤ f := hcost
      obtain ⟨f', rfl⟩ : ∃ f', f = f' + 1 := ⟨f - 1, by omega⟩
      show parseV (f' + 1) ('n' :: 'u' :: 'l' :: 'l' :: rest) = some (JSVal.null, rest)
      rw [parseV_succ, skipWs_nonws 'n' _ (by decide)]
      rfl
    | null =>
      have h1 : 1 ≤ f := hcost
      obtain ⟨f', rfl⟩ : ∃ f', f = f' + 1 := ⟨f - 1, by omega⟩
      show parseV (f' + 1) ('n' :: 'u' :: 'l' :: 'l' :: rest) = some (JSVal.null, rest)
      rw [parseV_succ, skipWs_nonws 'n' _ (by decide)]
      rfl
    | bool b =>
      have h1 : 1 ≤ f := hcost
      obtain ⟨f', rfl⟩ : ∃ f', f = f' + 1 := ⟨f - 1, by omega⟩
      cases b with
      | true =>
        show parseV (f' + 1) ('t' :: 'r' :: 'u' :: 'e' :: rest) = some (JSVal.bool true, rest)
        rw [parseV_succ, skipWs_nonws 't' _ (by decide)]
        rfl
      | false =>
        show parseV (f' + 1) ('f' :: 'a' :: 'l' :: 's' :: 'e' :: rest) =
          some (JSVal.bool false, rest)
        rw [parseV_succ, skipWs_nonws 'f' _ (by decide)]
        rfl
    | num q =>
      have hdq : decOkQ q = true := hnum
      have hdvd : q.den ∣ 10 ^ decExp q.den := by
        have h := hdq
        simp [decOkQ] at h
        exact h
      have h1 : 1 ≤ f := hcost
      obtain ⟨f', rfl⟩ : ∃ f', f = f' + 1 := ⟨f - 1, by omega⟩
      obtain ⟨c, tl, hdt, hws, h1, h2, h3, h4, h5, h6, _, _, _⟩ := jsNumToString_head q hdvd
      have hsteps : renderV ind (JSVal.num q) ++ rest = c :: (tl ++ rest) := by
        show (jsNumToString q).data ++ rest = c :: (tl ++ rest)
        rw [hdt]
        rfl
      rw [hsteps, parseV_succ, skipWs_nonws c _ hws]
      simp only [parseVCore, h1, h2, h3, h4, h5, h6, if_false]
      rw [← List.cons_append, ← hdt, parseNumAt_render q hdq rest hrest]
      rfl
    | str s =>
      have h1 : 1 ≤ f := hcost
      obtain ⟨f', rfl⟩ : ∃ f', f = f' + 1 := ⟨f - 1, by omega⟩
      have hI : renderV ind (JSVal.str s) ++ rest = '"' :: (escList s.data ++ '"' :: rest) := by
        show ('"' :: (escList s.data ++ ['"'])) ++ rest = _
        simp [List.append_assoc]
      rw [hI, parseV_succ, skipWs_nonws '"' _ (by decide)]
      show (parseStrBody (escList s.data ++ '"' :: rest)).map
        (fun p => (JSVal.str (String.mk p.1), p.2)) = some (stripV (JSVal.str s), rest)
      rw [parseStrBody_esc]
      rfl
    | arr xs =>
      have hnums : numsOkL xs = true := hnum
      have hc2 : 1 + costArrB xs ≤ f := hcost
      obtain ⟨f', rfl⟩ : ∃ f', f = f' + 1 := ⟨f - 1, by omega⟩
      show parseV (f' + 1) (('[' :: renderArrInner ind xs) ++ rest) =
        some (JSVal.arr (stripL xs), rest)
      rw [List.cons_append, parseV_succ, skipWs_nonws '[' _ (by decide)]
      show parseArrBody f' (renderArrInner ind xs ++ rest) = some (JSVal.arr (stripL xs), rest)
      exact (IH f' (by omega)).2.1 xs ind rest hnums (by omega) hrest
    | obj ms =>
      have hnums : numsOkM ms = true := hnum
      have hc2 : 1 + costObjB ms ≤ f := hcost
      obtain ⟨f', rfl⟩ : ∃ f', f = f' + 1 := ⟨f - 1, by omega⟩
      show parseV (f' + 1) ((lbrace :: renderObjInner ind ms) ++ rest) =
        some (JSVal.obj (stripM ms), rest)
      rw [List.cons_append, parseV_succ, skipWs_nonws lbrace _ (by decide)]
      show parseObjBody f' (renderObjInner ind ms ++ rest) = some (JSVal.obj (stripM ms), rest)
      exact (IH f' (by omega)).2.2.2.1 ms ind rest hnums (by omega) hrest
  · -- parseArrBody
    intro xs ind rest hnum hcost hrest
    cases xs with
    | nil =>
      have h1 : 1 ≤ f := hcost
      obtain ⟨f', rfl⟩ : ∃ f', f = f' + 1 := ⟨f - 1, by omega⟩
      show parseArrBody (f' + 1) (']' :: rest) = some (JSVal.arr [], rest)
      rw [parseArrBody_succ, skipWs_nonws ']' _ (by decide)]
      rfl
    | cons x xs' =>
      have hpair := band_split (show (numsOkV x && numsOkL xs') = true from hnum)
      have hc2 : 1 + costV x + costArrRest xs' ≤ f := hcost
      obtain ⟨f', rfl⟩ : ∃ f', f = f' + 1 := ⟨f - 1, by omega⟩
      have hI : renderArrInner ind (x :: xs') ++ rest =
          '\n' :: (wsPad (ind + 2) ++ (renderV (ind + 2) x ++ (renderArrTail ind xs' ++ rest))) := by
        show ('\n' :: (wsPad (ind + 2) ++ renderV (ind + 2) x ++ renderArrTail ind xs')) ++ rest = _
        simp [List.append_assoc]
      rw [hI, parseArrBody_succ]
      obtain ⟨c, ctl, hcdt, hcws, hcbr, hcrb, hccm⟩ := renderV_head (ind + 2) x hpair.1
      have hskip : skipWs ('\n' :: (wsPad (ind + 2) ++
          (renderV (ind + 2) x ++ (renderArrTail ind xs' ++ rest)))) =
          c :: (ctl ++ (renderArrTail ind xs' ++ rest)) := by
        rw [skipWs_nl, skipWs_pad, hcdt, List.cons_append]
        exact skipWs_nonws c _ hcws
      rw [hskip]
      show (if c = ']' then some (JSVal.arr [], ctl ++ (renderArrTail ind xs' ++ rest)) else
        (parseV f' ('\n' :: (wsPad (ind + 2) ++
          (renderV (ind + 2) x ++ (renderArrTail ind xs' ++ rest))))).bind
          (fun vr => (parseArrRest f' vr.2).map
            (fun vs => (JSVal.arr (vr.1 :: vs.1), vs.2)))) =
        some (JSVal.arr (stripL (x :: xs')), rest)
      rw [if_neg hcbr]
      have hcng : parseV f' ('\n' :: (wsPad (ind + 2) ++
          (renderV (ind + 2) x ++ (renderArrTail ind xs' ++ rest)))) =
          parseV f' (renderV (ind + 2) x ++ (renderArrTail ind xs' ++ rest)) :=
        parseV_congr f' _ _ (by rw [skipWs_nl, skipWs_pad])
      rw [hcng, (IH f' (by omega)).1 x (ind + 2) (renderArrTail ind xs' ++ rest)
        hpair.1 (by omega) (restOk_arrTail ind xs' rest)]
      show (parseArrRest f' (renderArrTail ind xs' ++ rest)).map
        (fun vs => (JSVal.arr (stripV x :: vs.1), vs.2)) =
        some (JSVal.arr (stripL (x :: xs')), rest)
      rw [(IH f' (by omega)).2.2.1 xs' ind rest hpair.2 (by omega) hrest]
      rfl
  · -- parseArrRest
    intro xs ind rest hnum hcost hrest
    cases xs with
    | nil =>
      have h1 : 1 ≤ f := hcost
      obtain ⟨f', rfl⟩ : ∃ f', f = f' + 1 := ⟨f - 1, by omega⟩
      have hI : renderArrTail ind ([] : List JSVal) ++ rest =
          '\n' :: (wsPad ind ++ (']' :: rest)) := by
        show ('\n' :: (wsPad ind ++ [']'])) ++ rest = _
        simp [List.append_assoc]
      rw [hI, parseArrRest_succ]
      have hskip : skipWs ('\n' :: (wsPad ind ++ (']' :: rest))) = ']' :: rest := by
        rw [skipWs_nl, skipWs_pad]
        exact skipWs_nonws ']' _ (by decide)
      rw [hskip]
      rfl
    | cons x xs' =>
      have hpair := band_split (show (numsOkV x && numsOkL xs') = true from hnum)
      have hc2 : 1 + costV x + costArrRest xs' ≤ f := hcost
      obtain ⟨f', rfl⟩ : ∃ f', f = f' + 1 := ⟨f - 1, by omega⟩
      have hI : renderArrTail ind (x :: xs') ++ rest =
          ',' :: ('\n' :: (wsPad (ind + 2) ++
            (renderV (ind + 2) x ++ (renderArrTail ind xs' ++ rest)))) := by
        show (',' :: '\n' :: (wsPad (ind + 2) ++ renderV (ind + 2) x ++
          renderArrTail ind xs')) ++ rest = _
        simp [List.append_assoc]
      rw [hI, parseArrRest_succ, skipWs_nonws ',' _ (by decide)]
      show (parseV f' ('\n' :: (wsPad (ind + 2) ++
          (renderV (ind + 2) x ++ (renderArrTail ind xs' ++ rest))))).bind
          (fun vr => (parseArrRest f' vr.2).map (fun vs => (vr.1 :: vs.1, vs.2))) =
        some (stripL (x :: xs'), rest)
      have hcng : parseV f' ('\n' :: (wsPad (ind + 2) ++
          (renderV (ind + 2) x ++ (renderArrTail ind xs' ++ rest)))) =
          parseV f' (renderV (ind + 2) x ++ (renderArrTail ind xs' ++ rest)) :=
        parseV_congr f' _ _ (by rw [skipWs_nl, skipWs_pad])
      rw [hcng, (IH f' (by omega)).1 x (ind + 2) (renderArrTail ind xs' ++ rest)
        hpair.1 (by omega) (restOk_arrTail ind xs' rest)]
      show (parseArrRest f' (renderArrTail ind xs' ++ rest)).map
        (fun vs => (stripV x :: vs.1, vs.2)) = some (stripL (x :: xs'), rest)
      rw [(IH f' (by omega)).2.2.1 xs' ind rest hpair.2 (by omega) hrest]
      rfl
  · -- parseObjBody
    intro ms
    induction ms with
    | nil =>
      intro ind rest hnum hcost hrest
      have h1 : 1 ≤ f := hcost
      obtain ⟨f', rfl⟩ : ∃ f', f = f' + 1 := ⟨f - 1, by omega⟩
      show parseObjBody (f' + 1) (rbrace :: rest) = some (JSVal.obj [], rest)
      rw [parseObjBody_succ, skipWs_nonws rbrace _ (by decide)]
      rfl
    | cons hd tl ihms =>
      obtain ⟨k, v⟩ := hd
      intro ind rest hnum hcost hrest
      have hpair := band_split (show (numsOkV v && numsOkM tl) = true from hnum)
      by_cases hv : v = JSVal.undef
      · subst hv
        show parseObjBody f (renderObjInner ind tl ++ rest) = some (JSVal.obj (stripM tl), rest)
        exact ihms ind rest hpair.2 hcost hrest
      · have hc2 : 2 + costV v + costObjRest tl ≤ f := by
          rw [costObjB_cons_ne k v tl hv] at hcost
          exact hcost
        obtain ⟨f'', rfl⟩ : ∃ f'', f = f'' + 2 := ⟨f - 2, by omega⟩
        refine parseObjBody_kept f'' k v tl ind rest (renderObjInner_cons_ne ind k v tl hv)
          (stripM_cons_ne k v tl hv) ?_ ?_
        · exact (IH f'' (by omega)).1 v (ind + 2) (renderObjTail ind tl ++ rest)
            hpair.1 (by omega) (restOk_objTail ind tl rest)
        · exact (IH (f'' + 1) (by omega)).2.2.2.2 tl ind rest hpair.2 (by omega) hrest
  · -- parseObjRest
    intro ms
    induction ms with
    | nil =>
      intro ind rest hnum hcost hrest
      have h1 : 1 ≤ f := hcost
      obtain ⟨f', rfl⟩ : ∃ f', f = f' + 1 := ⟨f - 1, by omega⟩
      have hI : renderObjTail ind ([] : List (String × JSVal)) ++ rest =
          '\n' :: (wsPad ind ++ (rbrace :: rest)) := by
        show ('\n' :: (wsPad ind ++ [rbrace])) ++ rest = _
        simp [List.append_assoc]
      rw [hI, parseObjRest_succ]
      have hskip : skipWs ('\n' :: (wsPad ind ++ (rbrace :: rest))) = rbrace :: rest := by
        rw [skipWs_nl, skipWs_pad]
        exact skipWs_nonws rbrace _ (by decide)
      rw [hskip]
      rfl
    | cons hd tl ihms =>
      obtain ⟨k, v⟩ := hd
      intro ind rest hnum hcost hrest
      have hpair := band_split (show (numsOkV v && numsOkM tl) = true from hnum)
      by_cases hv : v = JSVal.undef
      · subst hv
        show parseObjRest f (renderObjTail ind tl ++ rest) = some (stripM tl, rest)
        exact ihms ind rest hpair.2 hcost hrest
      · have hc2 : 2 + costV v + costObjRest tl ≤ f := by
          rw [costObjRest_cons_ne k v tl hv] at hcost
          exact hcost
        obtain ⟨f'', rfl⟩ : ∃ f'', f = f'' + 2 := ⟨f - 2, by omega⟩
        refine parseObjRest_kept f'' k v tl ind rest (renderObjTail_cons_ne ind k v tl hv)
          (stripM_cons_ne k v tl hv) ?_ ?_
        · exact (IH f'' (by omega)).1 v (ind + 2) (renderObjTail ind tl ++ rest)
            hpair.1 (by omega) (restOk_objTail ind tl rest)
        · exact (IH (f'' + 1) (by omega)).2.2.2.2 tl ind rest hpair.2 (by omega) hrest

/-- The parse cost of a value is covered by the length of its rendering plus
one (so `jsonParse`'s fuel always suffices). -/
theorem cost_le_render_all : ∀ n : Nat,
    (∀ v : JSVal, sizeOf v ≤ n → ∀ ind, costV v ≤ (renderV ind v).length + 1) ∧
    (∀ xs : List JSVal, sizeOf xs ≤ n → ∀ ind,
      costArrB xs ≤ (renderArrInner ind xs).length + 1) ∧
    (∀ xs : List JSVal, sizeOf xs ≤ n → ∀ ind,
      costArrRest xs ≤ (renderArrTail ind xs).length + 1) ∧
    (∀ ms : List (String × JSVal), sizeOf ms ≤ n → ∀ ind,
      costObjB ms ≤ (renderObjInner ind ms).length + 1) ∧
    (∀ ms : List (String × JSVal), sizeOf ms ≤ n → ∀ ind,
      costObjRest ms ≤ (renderObjTail ind ms).length + 1) := by
  intro n
  induction n using Nat.strong_induction_on with
  | _ n IH =>
  refine ⟨?_, ?_, ?_, ?_, ?_⟩
  · intro v hsz ind
    cases v with
    | undef =>
      show (1 : Nat) ≤ ("null".data : List Char).length + 1
      omega
    | null =>
      show (1 : Nat) ≤ ("null".data : List Char).length + 1
      omega
    | bool b =>
      cases b with
      | true =>
        show (1 : Nat) ≤ ("true".data : List Char).length + 1
        omega
      | false =>
        show (1 : Nat) ≤ ("false".data : List Char).length + 1
        omega
    | num q =>
      show (1 : Nat) ≤ ((jsNumToString q).data : List Char).length + 1
      omega
    | str s =>
      show (1 : Nat) ≤ (renderString s).length + 1
      omega
    | arr xs =>
      simp at hsz
      have hB := (IH (sizeOf xs) (by omega)).2.1 xs (le_refl _) ind
      show 1 + costArrB xs ≤ ('[' :: renderArrInner ind xs).length + 1
      simp only [List.length_cons]
      omega
    | obj ms =>
      simp at hsz
      have hD := (IH (sizeOf ms) (by omega)).2.2.2.1 ms (le_refl _) ind
      show 1 + costObjB ms ≤ (lbrace :: renderObjInner ind ms).length + 1
      simp only [List.length_cons]
      omega
  · intro xs hsz ind
    cases xs with
    | nil =>
      show (1 : Nat) ≤ ([']'] : List Char).length + 1
      omega
    | cons x xs' =>
      simp at hsz
      have hA := (IH (sizeOf x) (by omega)).1 x (le_refl _) (ind + 2)
      have hC := (IH (sizeOf xs') (by omega)).2.2.1 xs' (le_refl _) ind
      show 1 + costV x + costArrRest xs' ≤
        ('\n' :: (wsPad (ind + 2) ++ renderV (ind + 2) x ++ renderArrTail ind xs')).length + 1
      simp [wsPad, List.length_append]
      omega
  · intro xs hsz ind
    cases xs with
    | nil =>
      show (1 : Nat) ≤ ('\n' :: (wsPad ind ++ [']'])).length + 1
      omega
    | cons x xs' =>
      simp at hsz
      have hA := (IH (sizeOf x) (by omega)).1 x (le_refl _) (ind + 2)
      have hC := (IH (sizeOf xs') (by omega)).2.2.1 xs' (le_refl _) ind
      show 1 + costV x + costArrRest xs' ≤
        (',' :: '\n' :: (wsPad (ind + 2) ++ renderV (ind + 2) x ++
          renderArrTail ind xs')).length + 1
      simp [wsPad, List.length_append]
      omega
  · intro ms hsz ind
    cases ms with
    | nil =>
      show (1 : Nat) ≤ ([rbrace] : List Char).length + 1
      omega
    | cons hd tl =>
      obtain ⟨k, v⟩ := hd
      simp at hsz
      by_cases hv : v = JSVal.undef
      · subst hv
        show costObjB tl ≤ (renderObjInner ind tl).length + 1
        exact (IH (sizeOf tl) (by omega)).2.2.2.1 tl (le_refl _) ind
      · have hA := (IH (sizeOf v) (by omega)).1 v (le_refl _) (ind + 2)
        have hE := (IH (sizeOf tl) (by omega)).2.2.2.2 tl (le_refl _) ind
        rw [costObjB_cons_ne k v tl hv, renderObjInner_cons_ne ind k v tl hv]
        simp [wsPad, List.length_append]
        omega
  · intro ms hsz ind
    cases ms with
    | nil =>
      show (1 : Nat) ≤ ('\n' :: (wsPad ind ++ [rbrace])).length + 1
      omega
    | cons hd tl =>
      obtain ⟨k, v⟩ := hd
      simp at hsz
      by_cases hv : v = JSVal.undef
      · subst hv
        show costObjRest tl ≤ (renderObjTail ind tl).length + 1
        exact (IH (sizeOf tl) (by omega)).2.2.2.2 tl (le_refl _) ind
      · have hA := (IH (sizeOf v) (by omega)).1 v (le_refl _) (ind + 2)
        have hE := (IH (sizeOf tl) (by omega)).2.2.2.2 tl (le_refl _) ind
        rw [costObjRest_cons_ne k v tl hv, renderObjTail_cons_ne ind k v tl hv]
        simp [wsPad, List.length_append]
        omega

/-- `JSON.parse` inverts `JSON.stringify(·, null, 2)` up to the stripping of
`undefined` members, for any stringifiable value whose numbers have
terminating decimal expansions. -/
theorem jsonRoundTrip (v : JSVal) (hv : v ≠ JSVal.undef) (hnum : numsOkV v = true) :
    (jsonStringify v).bind jsonParse = some (stripV v) := by
  have hjs : jsonStringify v = some (String.mk (renderV 0 v)) := by
    cases v
    · exact absurd rfl hv
    all_goals rfl
  rw [hjs]
  show jsonParse (String.mk (renderV 0 v)) = some (stripV v)
  have hcost : costV v ≤ (renderV 0 v).length + 1 :=
    (cost_le_render_all (sizeOf v)).1 v (le_refl _) 0
  have hpv := (parse_render_all ((renderV 0 v).length + 1)).1 v 0 [] hnum hcost trivial
  rw [List.append_nil] at hpv
  show (match parseV ((renderV 0 v).length + 1) (renderV 0 v) with
    | some (val, rest) => if (skipWs rest).isEmpty then some val else none
    | none => none) = some (stripV v)
  rw [hpv]
  rfl

set_option maxRecDepth 100000 in
unseal Rat.add Rat.mul Rat.inv Rat.sub in
/-- C9 counterexample: for the TEXT node without a `characters` field, the
normalized value carries an `undefined`-valued `textContent` member, which
`JSON.stringify` drops; parsing the rendering back is therefore not
deep-equal to the normalized value itself. -/
theorem json_roundtrip_cx :
    (jsonStringify (extractNodeProperties nodeTextNoChars)).bind jsonParse ≠
      some (extractNodeProperties nodeTextNoChars) := by
  decide

/-- C9 (amended): for every raw node whose normalization carries only
numbers with terminating decimal expansions (true of all JS floats),
parsing the 2-space pretty-printed serialization of the normalized node
yields the normalized value with its `undefined`-valued members dropped —
the round trip is the identity exactly up to that stripping. -/
theorem json_roundtrip_normalized (n : RawNode)
    (hnum : numsOkV (extractNodeProperties n) = true) :
    (jsonStringify (extractNodeProperties n)).bind jsonParse =
      some (stripV (extractNodeProperties n)) := by
  apply jsonRoundTrip _ _ hnum
  cases n with
  | mk p cs =>
    rw [extractNodeProperties_mk]
    exact fun h => JSVal.noConfusion h

set_option maxRecDepth 100000 in
unseal Rat.add Rat.mul Rat.inv Rat.sub in
/-- Witness for C9's amended theorem at the spec's example button node. -/
theorem json_roundtrip_normalized_witness :
    numsOkV (extractNodeProperties nodeBtn) = true ∧
    (jsonStringify (extractNodeProperties nodeBtn)).bind jsonParse =
      some (stripV (extractNodeProperties nodeBtn)) :=
  ⟨by decide, json_roundtrip_normalized nodeBtn (by decide)⟩
